import Mathlib

/-!
Shallow embedding of the loyalty-points backend's ledger and tier engine
(`manual_points_adjustment.controller.js`, and the scheduled processor in
`process_points_and_tiers`).  Dates are modelled as integers (abstract day
numbers), Mongo ObjectIds of customers/tiers/ledger entries as naturals,
point-criteria identifiers as strings.  Database writes are modelled as pure
state transformations on a `World` record; `findByIdAndUpdate` becomes a map
over the corresponding list keyed on the id field.  The wall clock
(`new Date()`) is injected as an explicit `now` parameter.
-/

namespace Loyalty

/-- Status of a loyalty-points ledger entry (`LoyaltyPoints.status`). -/
inductive LedgerStatus where
  | active
  | redeemed
  | expired
deriving Repr, DecidableEq

/-- One points grant in the ledger (`LoyaltyPoints` model).  `redeemedAt` is
`none` until the entry is fully redeemed. -/
structure LedgerEntry where
  id : Nat
  customer_id : Nat
  points : Int
  earnedAt : Int
  expiryDate : Int
  status : LedgerStatus
  redeemedAt : Option Int := none
deriving Repr, DecidableEq

/-- Transaction types appearing in the modelled code paths. -/
inductive TxType where
  | earn
  | redeem
  | expire
  | tier_downgrade
  | tier_protection_adjustment
deriving Repr, DecidableEq

/-- Transaction status; the modelled code always creates `completed`. -/
inductive TxStatus where
  | completed
deriving Repr, DecidableEq

/-- Per-entry breakdown item accumulated by FIFO redemption
(`usedLoyaltyPoints` array in `redeemPointsFIFO`). -/
structure UsedPoint where
  loyalty_point_id : Nat
  original_points : Int
  points_used : Int
  fully_redeemed : Bool
  expiryDate : Int
  earnedAt : Int
deriving Repr, DecidableEq

/-- Append-only transaction log record (`Transaction` model).  Audit-only
metadata constants (`admin_entered`, `manual_source`) are omitted; the
redeem breakdown is kept as `metadata_used_points`. -/
structure Transaction where
  customer_id : Nat
  transaction_type : TxType
  points : Int
  transaction_id : String
  status : TxStatus
  note : String
  app_type : Option Nat := none
  metadata_used_points : List UsedPoint := []
  transaction_date : Int
deriving Repr, DecidableEq

/-- Tier reference data (`Tier` model). -/
structure Tier where
  id : Nat
  name : String
  hierarchy_level : Int
  points_required : Int
deriving Repr, DecidableEq

/-- Customer record (`Customer` model): `id` models the Mongo `_id`,
`customer_id` the business key used by bulk upload lookup. -/
structure Customer where
  id : Nat
  customer_id : String
  tier : Nat
  total_points : Int
  coins : Int
deriving Repr, DecidableEq

/-- Per-tier retention policy (`TierEligibilityCriteria` model). -/
structure TierEligibilityCriteria where
  tier_id : Nat
  is_active : Bool
  evaluation_period_days : Int
  consecutive_periods_required : Nat
  net_earning_required : Int
deriving Repr, DecidableEq

/-- Priority-protection record (`PriorityCustomer` model). -/
structure PriorityCustomer where
  customer_id : Nat
  tier_id : Nat
  is_active : Bool
deriving Repr, DecidableEq

/-- One rule inside a point criteria's `pointSystem` array. -/
structure PointRule where
  pointType : String
  pointRate : Int
deriving Repr, DecidableEq

/-- Point criteria configuration (`PointCriteria` model); `id` models the
ObjectId hex string, `unique_code` the alternative lookup key. -/
structure PointCriteria where
  id : String
  unique_code : String
  pointSystem : List PointRule
deriving Repr, DecidableEq

/-- App-type reference data (`AppType` model). -/
structure AppType where
  id : Nat
  name : String
deriving Repr, DecidableEq

/-- The persistent database state touched by the modelled operations. -/
structure World where
  customers : List Customer
  tiers : List Tier
  ledger : List LedgerEntry
  transactions : List Transaction
  criteria : List TierEligibilityCriteria
  priority : List PriorityCustomer
  pointCriteria : List PointCriteria
  appTypes : List AppType
deriving Repr, DecidableEq

/-- Sort key for FIFO consumption: ascending `earnedAt` (`.sort({earnedAt: 1})`). -/
def earnedBefore (a b : LedgerEntry) : Prop := a.earnedAt ≤ b.earnedAt

instance : DecidableRel earnedBefore :=
  fun a b => inferInstanceAs (Decidable (a.earnedAt ≤ b.earnedAt))

instance : IsTotal LedgerEntry earnedBefore := ⟨fun a b => le_total a.earnedAt b.earnedAt⟩

instance : IsTrans LedgerEntry earnedBefore := ⟨fun _ _ _ => le_trans⟩

/-- Ascending-`earnedAt` sort used by `redeemPointsFIFO`. -/
def sortByEarnedAt (l : List LedgerEntry) : List LedgerEntry :=
  List.insertionSort earnedBefore l

/-- The entries `redeemPointsFIFO` walks: the customer's `active` entries with
`expiryDate >= now`, sorted by ascending `earnedAt`. -/
def validEntries (ledger : List LedgerEntry) (customerId : Nat) (now : Int) :
    List LedgerEntry :=
  sortByEarnedAt (ledger.filter (fun e =>
    e.customer_id == customerId && decide (now ≤ e.expiryDate) && e.status == .active))

/-- Sum of a customer's active, non-expired ledger points (the
`totalAvailablePoints` reduction in `redeemPointsFIFO`). -/
def availablePoints (ledger : List LedgerEntry) (customerId : Nat) (now : Int) : Int :=
  ((ledger.filter (fun e =>
    e.customer_id == customerId && decide (now ≤ e.expiryDate) && e.status == .active)).map
      (fun e => e.points)).sum

/-- The FIFO consumption loop of `redeemPointsFIFO`: returns the updated
versions of the walked entries, the breakdown list, and the points actually
redeemed.  A fully consumed entry is marked `redeemed` with points zeroed;
the final partially consumed entry only has its points decremented. -/
def fifoWalk (now : Int) : Int → List LedgerEntry →
    List LedgerEntry × List UsedPoint × Int
  | _, [] => ([], [], 0)
  | remainingPoints, entry :: rest =>
    if remainingPoints ≤ 0 then (entry :: rest, [], 0)
    else if entry.points ≤ remainingPoints then
      let tail := fifoWalk now (remainingPoints - entry.points) rest
      ({ entry with status := .redeemed, redeemedAt := some now, points := 0 } :: tail.1,
        { loyalty_point_id := entry.id, original_points := entry.points,
          points_used := entry.points, fully_redeemed := true,
          expiryDate := entry.expiryDate, earnedAt := entry.earnedAt } :: tail.2.1,
        entry.points + tail.2.2)
    else
      ({ entry with points := entry.points - remainingPoints } :: rest,
        [{ loyalty_point_id := entry.id, original_points := entry.points,
           points_used := remainingPoints, fully_redeemed := false,
           expiryDate := entry.expiryDate, earnedAt := entry.earnedAt }],
        remainingPoints)

/-- Result record returned by `redeemPointsFIFO`. -/
structure FifoResult where
  success : Bool
  availablePoints : Int
  redeemedPoints : Int
  message : String
  usedLoyaltyPoints : List UsedPoint := []
deriving Repr, DecidableEq

/-- Apply the per-id `findByIdAndUpdate` writes of the FIFO walk to the ledger. -/
def applyLedgerUpdates (ledger upd : List LedgerEntry) : List LedgerEntry :=
  ledger.map (fun e => ((upd.find? (fun u => u.id == e.id)).getD e))

/-- FIFO redemption (`redeemPointsFIFO`): selects the customer's active,
non-expired entries oldest-first; fails without touching the ledger when the
available sum is below the request; otherwise consumes entries via `fifoWalk`. -/
def redeemPointsFIFO (ledger : List LedgerEntry) (customerId : Nat)
    (pointsToRedeem : Int) (now : Int) : FifoResult × List LedgerEntry :=
  let validPoints := validEntries ledger customerId now
  let totalAvailablePoints := (validPoints.map (fun e => e.points)).sum
  if totalAvailablePoints < pointsToRedeem then
    ({ success := false, availablePoints := totalAvailablePoints, redeemedPoints := 0,
       message := "Insufficient points. Available: " ++ toString totalAvailablePoints ++
         ", Requested: " ++ toString pointsToRedeem }, ledger)
  else
    let walk := fifoWalk now pointsToRedeem validPoints
    ({ success := true, availablePoints := totalAvailablePoints,
       redeemedPoints := walk.2.2,
       message := "Successfully redeemed " ++ toString walk.2.2 ++ " points using FIFO",
       usedLoyaltyPoints := walk.2.1 },
      applyLedgerUpdates ledger walk.1)

/-- Drop leading whitespace characters. -/
def dropWhitespaceLeft : List Char → List Char
  | [] => []
  | c :: cs => if c.isWhitespace then dropWhitespaceLeft cs else c :: cs

/-- Structural model of JavaScript `String.prototype.trim` (the built-in
`String.trim` is defined by well-founded recursion over substrings and does
not reduce inside the kernel). -/
def strTrim (s : String) : String :=
  ⟨(dropWhitespaceLeft (dropWhitespaceLeft s.data).reverse).reverse⟩

/-- Lookup a customer document by Mongo `_id` (`Customer.findById`). -/
def getCustomer (w : World) (cid : Nat) : Option Customer :=
  w.customers.find? (fun c => c.id == cid)

/-- The `tier` field of a customer's current document, if the customer exists. -/
def customerTier (w : World) (cid : Nat) : Option Nat :=
  (getCustomer w cid).map (fun c => c.tier)

/-- The `total_points` field of a customer's current document. -/
def customerTotal (w : World) (cid : Nat) : Option Int :=
  (getCustomer w cid).map (fun c => c.total_points)

/-- The `coins` field of a customer's current document. -/
def customerCoins (w : World) (cid : Nat) : Option Int :=
  (getCustomer w cid).map (fun c => c.coins)

/-- Number of transactions of a given type belonging to a customer. -/
def txCount (txs : List Transaction) (cid : Nat) (ty : TxType) : Nat :=
  (txs.filter (fun t => t.customer_id == cid && t.transaction_type == ty)).length

/-- Sum of a customer's `active` ledger points regardless of expiry. -/
def activeLedgerSum (ledger : List LedgerEntry) (cid : Nat) : Int :=
  ((ledger.filter (fun e => e.customer_id == cid && e.status == .active)).map
    (fun e => e.points)).sum

/-- Case-insensitive app-type lookup (`findAppType`): trimmed name matched
case-insensitively against `AppType.name` (the `RegExp` anchored `i` match). -/
def findAppType (w : World) (requestedBy : String) : Option AppType :=
  let normalized := strTrim requestedBy
  if normalized == "" then none
  else w.appTypes.find? (fun a => a.name.toLower == normalized.toLower)

/-- Validity test for a 24-hex-character ObjectId string
(`mongoose.Types.ObjectId.isValid` on the trimmed identifier). -/
def isValidObjectId (s : String) : Bool :=
  s.length == 24 && s.toList.all (fun ch =>
    ch.isDigit || ('a' ≤ ch && ch ≤ 'f') || ('A' ≤ ch && ch ≤ 'F'))

/-- Resolve a point-criteria reference (`resolvePointCriteria`): try by
ObjectId when the identifier looks like one, then fall back to `unique_code`. -/
def resolvePointCriteria (w : World) (identifier : String) : Option PointCriteria :=
  let normalized := strTrim identifier
  if normalized == "" then none
  else if isValidObjectId normalized then
    match w.pointCriteria.find? (fun c => c.id == normalized) with
    | some byId => some byId
    | none => w.pointCriteria.find? (fun c => c.unique_code == normalized)
  else w.pointCriteria.find? (fun c => c.unique_code == normalized)

/-- Resolve the fixed manual award for a criteria
(`getManualPointsForCriteria`): the `fixed` entry, or else the first entry, of
`pointSystem`; rejected unless its `pointRate` is positive.  (The JS
`Number.isFinite` guard is vacuous over the integer model.) -/
def getManualPointsForCriteria (criteria : PointCriteria) : Except String PointRule :=
  match criteria.pointSystem with
  | [] => .error "Point criteria is missing point system configuration"
  | first :: _ =>
    if ((criteria.pointSystem.find? (fun e => e.pointType == "fixed")).getD first).pointRate ≤ 0 then
      .error "Point criteria does not have a valid fixed point rule"
    else .ok ((criteria.pointSystem.find? (fun e => e.pointType == "fixed")).getD first)

/-- The admin note prefix applied by `buildManualNote`. -/
def buildManualNote (action note : String) : String :=
  "Manual points " ++ action ++ " by admin - " ++ strTrim note

/-- A fresh ledger-entry id (Mongo allocates a fresh `_id` on insert). -/
def freshLedgerId (ledger : List LedgerEntry) : Nat :=
  (ledger.map (fun e => e.id)).foldl max 0 + 1

/-- Set the `tier` field of the customer with the given `_id`
(`Customer.findByIdAndUpdate(id, { tier })`). -/
def updateTier (customers : List Customer) (cid tierId : Nat) : List Customer :=
  customers.map (fun c => if c.id == cid then { c with tier := tierId } else c)

/-- Increment `total_points` and `coins` of the customer with the given `_id`
(the `$inc` update used by the manual grant paths). -/
def incPointsAndCoins (customers : List Customer) (cid : Nat) (delta : Int) :
    List Customer :=
  customers.map (fun c =>
    if c.id == cid then
      { c with total_points := c.total_points + delta, coins := c.coins + delta }
    else c)

/-- Increment only `total_points` of the customer with the given `_id`
(the `$inc` update used by `reducePoints`). -/
def incTotalOnly (customers : List Customer) (cid : Nat) (delta : Int) :
    List Customer :=
  customers.map (fun c =>
    if c.id == cid then { c with total_points := c.total_points + delta } else c)

/-- Outcome of `addPointsIndividual` as seen by the HTTP caller. -/
inductive AddResult where
  | customerNotFound
  | criteriaNotFound
  | invalidRule (message : String)
  | success (points_awarded point_balance : Int)
deriving Repr, DecidableEq

/-- Modelled from the spec: `checkAndUpgradeTier` (tier controller, not under
`src/`) re-evaluates tier upgrades after a grant and may update the customer's
current-tier pointer only; its failure is swallowed by the caller.  The
outcome is injected as an optional new tier id. -/
def applyTierUpgrade (customers : List Customer) (cid : Nat)
    (tierUpgrade : Option Nat) : List Customer :=
  match tierUpgrade with
  | some tid => updateTier customers cid tid
  | none => customers

/-- Manual individual grant (`addPointsIndividual`).  `calcExpiry` models the
external `PointsExpirationRules.calculateExpiryDate` collaborator; `ledgerOk`
models whether `LoyaltyPoints.create` succeeds (on failure the error is
swallowed after logging, so the grant still commits); `tierUpgrade` models the
spec-described tier side-call (see `applyTierUpgrade`). -/
def addPointsIndividual (w : World) (calcExpiry : Option Nat → Int) (now : Int)
    (customer_id : Nat) (point_criteria requested_by note : String)
    (ledgerOk : Bool) (tierUpgrade : Option Nat) : AddResult × World :=
  match getCustomer w customer_id with
  | none => (.customerNotFound, w)
  | some customer =>
    match resolvePointCriteria w point_criteria with
    | none => (.criteriaNotFound, w)
    | some criteria =>
      match getManualPointsForCriteria criteria with
      | .error msg => (.invalidRule msg, w)
      | .ok pointRule =>
        let pointsToAward := pointRule.pointRate
        let requestedAppType := findAppType w requested_by
        let tx : Transaction :=
          { customer_id := customer.id, transaction_type := .earn,
            points := pointsToAward, transaction_id := "PROMO-" ++ criteria.id,
            status := .completed, note := buildManualNote "addition" note,
            app_type := requestedAppType.map (fun a => a.id),
            transaction_date := now }
        let w1 := { w with transactions := w.transactions ++ [tx] }
        let w2 := { w1 with customers := incPointsAndCoins w1.customers customer.id pointsToAward }
        let tierArg := (w.tiers.find? (fun t => t.id == customer.tier)).map (fun t => t.id)
        let w3 :=
          if ledgerOk then
            { w2 with ledger := w2.ledger ++
              [{ id := freshLedgerId w2.ledger, customer_id := customer.id,
                 points := pointsToAward, earnedAt := now,
                 expiryDate := calcExpiry tierArg, status := .active }] }
          else w2
        let w4 := { w3 with customers := applyTierUpgrade w3.customers customer.id tierUpgrade }
        (.success pointsToAward (customer.total_points + pointsToAward), w4)

/-- Outcome of `reducePoints` as seen by the HTTP caller. -/
inductive ReduceResult where
  | customerNotFound
  | invalidPoints
  | fifoFailed (message : String)
  | success (point_balance : Int)
deriving Repr, DecidableEq

/-- Manual reduction (`reducePoints`): delegates to `redeemPointsFIFO`; on
failure the surrounding session is aborted, so the world is unchanged;
on success a `redeem` transaction is appended and only `total_points` is
decremented. -/
def reducePoints (w : World) (now : Int) (customer_id : Nat) (points : Int)
    (requested_by note : String) : ReduceResult × World :=
  match getCustomer w customer_id with
  | none => (.customerNotFound, w)
  | some customer =>
    if points ≤ 0 then (.invalidPoints, w)
    else
      let fifo := redeemPointsFIFO w.ledger customer.id points now
      if fifo.1.success then
        let requestedAppType := findAppType w requested_by
        let tx : Transaction :=
          { customer_id := customer.id, transaction_type := .redeem,
            points := -points, transaction_id := "REDUCE",
            status := .completed, note := buildManualNote "reduction" note,
            app_type := requestedAppType.map (fun a => a.id),
            metadata_used_points := fifo.1.usedLoyaltyPoints,
            transaction_date := now }
        (.success (customer.total_points - points),
          { w with ledger := fifo.2,
                   transactions := w.transactions ++ [tx],
                   customers := incTotalOnly w.customers customer.id (-points) })
      else (.fifoFailed fifo.1.message, w)

/-- One parsed spreadsheet row of the bulk upload.  The `has_*` flags model
`Object.prototype.hasOwnProperty` on the raw row; `points` models the result
of `Number(rawRow.points)`: `none` for NaN (missing or non-numeric cell),
`some n` for a finite numeric value. -/
structure BulkRow where
  has_customer_id : Bool
  has_point_criteria : Bool
  has_note : Bool
  customer_id : String
  points : Option Int
  point_criteria : String
  note : String
deriving Repr, DecidableEq

/-- A row that passed validation, with its resolved references
(the `enrichedRows` element of `addPointsBulk`). -/
structure EnrichedRow where
  rowNumber : Nat
  customer : Customer
  criteria : PointCriteria
  points : Int
  note : String
deriving Repr, DecidableEq

/-- Row-level error string format used throughout the bulk validation loop. -/
def mkRowError (rowNumber : Nat) (rest : String) : String :=
  "Row " ++ toString rowNumber ++ ": " ++ rest

/-- Validate a single bulk row in the order of the JS loop: required columns,
non-empty customer id, finite positive points, non-empty criteria id,
non-empty note, resolvable customer (by business `customer_id`), resolvable
point criteria. -/
def validateRow (w : World) (rowNumber : Nat) (row : BulkRow) :
    Except String EnrichedRow :=
  if !((if row.has_customer_id then [] else ["customer_id"]) ++
       (if row.has_point_criteria then [] else ["point_criteria"]) ++
       (if row.has_note then [] else ["note"])).isEmpty then
    .error (mkRowError rowNumber
      ("Missing columns " ++ String.intercalate ", "
        ((if row.has_customer_id then [] else ["customer_id"]) ++
         (if row.has_point_criteria then [] else ["point_criteria"]) ++
         (if row.has_note then [] else ["note"]))))
  else if strTrim row.customer_id == "" then
    .error (mkRowError rowNumber "customer_id is required")
  else
    match row.points with
    | none => .error (mkRowError rowNumber "points must be positive")
    | some pointsValue =>
      if pointsValue ≤ 0 then
        .error (mkRowError rowNumber "points must be positive")
      else if strTrim row.point_criteria == "" then
        .error (mkRowError rowNumber "point_criteria is required")
      else if strTrim row.note == "" then
        .error (mkRowError rowNumber "note is required")
      else
        match w.customers.find? (fun c => c.customer_id == strTrim row.customer_id) with
        | none =>
          .error (mkRowError rowNumber
            ("Customer " ++ strTrim row.customer_id ++ " not found"))
        | some customer =>
          match resolvePointCriteria w (strTrim row.point_criteria) with
          | none =>
            .error (mkRowError rowNumber
              ("Point criteria " ++ strTrim row.point_criteria ++ " not found"))
          | some criteria =>
            .ok { rowNumber := rowNumber, customer := customer,
                  criteria := criteria, points := pointsValue,
                  note := strTrim row.note }

/-- Pair each row with its spreadsheet row number (`index + 2`, accounting
for the header row). -/
def withRowNumbers : Nat → List BulkRow → List (Nat × BulkRow)
  | _, [] => []
  | n, r :: rs => (n, r) :: withRowNumbers (n + 1) rs

/-- All row-level validation error messages of a bulk batch. -/
def bulkValidationErrors (w : World) (rows : List BulkRow) : List String :=
  (withRowNumbers 2 rows).filterMap (fun p =>
    match validateRow w p.1 p.2 with
    | .error m => some m
    | .ok _ => none)

/-- All successfully validated rows of a bulk batch, in order. -/
def bulkEnrichedRows (w : World) (rows : List BulkRow) : List EnrichedRow :=
  (withRowNumbers 2 rows).filterMap (fun p =>
    match validateRow w p.1 p.2 with
    | .error _ => none
    | .ok e => some e)

/-- The per-row mutation of the bulk commit phase: create the earn
transaction, `$inc` the customer's `total_points` and `coins`, then
best-effort create the ledger entry (`ledgerOk rowNumber` models whether
`LoyaltyPoints.create` succeeds; on failure only a log line is written). -/
def bulkRowStep (calcExpiry : Option Nat → Int) (now : Int)
    (appTypeId : Option Nat) (ledgerOk : Nat → Bool)
    (w : World) (e : EnrichedRow) : World :=
  let tx : Transaction :=
    { customer_id := e.customer.id, transaction_type := .earn,
      points := e.points, transaction_id := "BULK-" ++ toString e.rowNumber,
      status := .completed, note := buildManualNote "addition" e.note,
      app_type := appTypeId, transaction_date := now }
  let w1 := { w with transactions := w.transactions ++ [tx] }
  let w2 := { w1 with customers := incPointsAndCoins w1.customers e.customer.id e.points }
  if ledgerOk e.rowNumber then
    { w2 with ledger := w2.ledger ++
      [{ id := freshLedgerId w2.ledger, customer_id := e.customer.id,
         points := e.points, earnedAt := now,
         expiryDate := calcExpiry ((w.tiers.find? (fun t => t.id == e.customer.tier)).map (fun t => t.id)),
         status := .active }] }
  else w2

/-- Outcome of `addPointsBulk` as seen by the HTTP caller. -/
inductive BulkResult where
  | missingRequestedBy
  | noRows
  | validationFailed (errors : List String)
  | success (total_rows : Nat)
deriving Repr, DecidableEq

/-- Bulk grant (`addPointsBulk`), starting from the parsed spreadsheet rows
(file handling and XLSX parsing are boundary collaborators): validate every
row first; if any row fails, reject the whole batch with the error list and
write nothing; otherwise run the per-row commit phase and the best-effort
tier side-calls (`tierUpgrade`, modelled from the spec as in
`applyTierUpgrade`). -/
def addPointsBulk (w : World) (calcExpiry : Option Nat → Int) (now : Int)
    (requested_by : String) (rows : List BulkRow)
    (ledgerOk : Nat → Bool) (tierUpgrade : Nat → Option Nat) :
    BulkResult × World :=
  if strTrim requested_by == "" then (.missingRequestedBy, w)
  else if rows.isEmpty then (.noRows, w)
  else
    let validationErrors := bulkValidationErrors w rows
    let enrichedRows := bulkEnrichedRows w rows
    if !validationErrors.isEmpty then (.validationFailed validationErrors, w)
    else
      let appTypeId := (findAppType w (strTrim requested_by)).map (fun a => a.id)
      let w1 := enrichedRows.foldl
        (bulkRowStep calcExpiry now appTypeId ledgerOk) w
      let w2 := enrichedRows.foldl
        (fun acc e =>
          { acc with customers :=
              applyTierUpgrade acc.customers e.customer.id (tierUpgrade e.customer.id) })
        w1
      (.success enrichedRows.length, w2)

/-- Net earn-sum of a customer's completed `earn` transactions with
`transaction_date` in `[periodStart, periodEnd)`. -/
def periodNetEarnings (w : World) (cid : Nat) (periodStart periodEnd : Int) : Int :=
  ((w.transactions.filter (fun t =>
    t.customer_id == cid && t.transaction_type == .earn &&
    decide (periodStart ≤ t.transaction_date) &&
    decide (t.transaction_date < periodEnd) &&
    t.status == .completed)).map (fun t => t.points)).sum

/-- Whether the evaluation window with the given index (0 = most recent)
meets `net_earning_required`:
window end is `now - periodIndex * evaluation_period_days`, window start one
period earlier. -/
def periodOK (w : World) (cid : Nat) (crit : TierEligibilityCriteria)
    (now : Int) (periodIndex : Nat) : Bool :=
  let periodEndDate := now - periodIndex * crit.evaluation_period_days
  let periodStartDate := periodEndDate - crit.evaluation_period_days
  decide (crit.net_earning_required ≤ periodNetEarnings w cid periodStartDate periodEndDate)

/-- The consecutive-period loop of `checkTierRetentionEligibility`, starting
at `periodIndex` with `fuel` windows left: the first failing window returns
`false` immediately; surviving all windows returns `true` (the final
`count >= required` comparison is then trivially satisfied). -/
def consecFrom (w : World) (cid : Nat) (now : Int)
    (crit : TierEligibilityCriteria) : Nat → Nat → Bool
  | _, 0 => true
  | periodIndex, fuel + 1 =>
    if periodOK w cid crit now periodIndex then
      consecFrom w cid now crit (periodIndex + 1) fuel
    else false

/-- The full consecutive-evaluation-period check over
`consecutive_periods_required` windows. -/
def consecCheck (w : World) (cid : Nat) (now : Int)
    (crit : TierEligibilityCriteria) : Bool :=
  consecFrom w cid now crit 0 crit.consecutive_periods_required

/-- Tier retention evaluation (`checkTierRetentionEligibility`): with no
active criteria for the tier, retain iff `total_points >= points_required`;
with criteria, the unconditional `total_points >= 0` branch runs the
consecutive-period check, and only the (unreachable for non-negative
balances) fall-through retains outright. -/
def checkTierRetentionEligibility (w : World) (customer : Customer)
    (tier : Tier) (now : Int) : Bool :=
  match w.criteria.find? (fun cr => cr.tier_id == tier.id && cr.is_active) with
  | none => decide (tier.points_required ≤ customer.total_points)
  | some crit =>
    if 0 ≤ customer.total_points then
      consecCheck w customer.id now crit
    else true

/-- Mark the ledger entry with the given id as expired
(`LoyaltyPoints.findByIdAndUpdate(id, { status: "expired" })`). -/
def markExpired (entryId : Nat) (ledger : List LedgerEntry) : List LedgerEntry :=
  ledger.map (fun x => if x.id == entryId then { x with status := .expired } else x)

/-- Process one expired snapshot record: mark it expired, append the `expire`
transaction with the negated remaining points, and debit the customer's
`total_points`. -/
def processExpired (now : Int) (w : World) (pointRecord : LedgerEntry) : World :=
  let tx : Transaction :=
    { customer_id := pointRecord.customer_id, transaction_type := .expire,
      points := -pointRecord.points,
      transaction_id := "EXP-" ++ toString now ++ "-" ++ toString pointRecord.customer_id,
      status := .completed, note := "Points expired on " ++ toString now,
      transaction_date := now }
  { w with
    ledger := markExpired pointRecord.id w.ledger,
    transactions := w.transactions ++ [tx],
    customers := incTotalOnly w.customers pointRecord.customer_id (-pointRecord.points) }

/-- Snapshot of the sweep: all `active` entries with `expiryDate < now`. -/
def newlyExpired (now : Int) (ledger : List LedgerEntry) : List LedgerEntry :=
  ledger.filter (fun e => e.status == .active && decide (e.expiryDate < now))

/-- Step 1 of `processPointsAndTiers`: expire every active entry past its
expiry, one record at a time over the initial snapshot. -/
def expireSweep (now : Int) (w : World) : World :=
  (newlyExpired now w.ledger).foldl (processExpired now) w

/-- Sort key for the tier scan: descending `hierarchy_level`
(`.sort({hierarchy_level: -1})`). -/
def higherTier (a b : Tier) : Prop := b.hierarchy_level ≤ a.hierarchy_level

instance : DecidableRel higherTier :=
  fun a b => inferInstanceAs (Decidable (b.hierarchy_level ≤ a.hierarchy_level))

instance : IsTotal Tier higherTier := ⟨fun a b => le_total b.hierarchy_level a.hierarchy_level⟩

instance : IsTrans Tier higherTier := ⟨fun _ _ _ h h2 => le_trans h2 h⟩

/-- Tiers ordered highest hierarchy first, as the processor fetches them. -/
def sortTiersDesc (tiers : List Tier) : List Tier :=
  List.insertionSort higherTier tiers

/-- The processor's base tier: the tier with `hierarchy_level` 0, or else the
last of the descending-sorted list (the lowest tier); `none` when no tiers
exist (the processor then throws and the whole unit of work aborts). -/
def baseTier (tiers : List Tier) : Option Tier :=
  let sorted := sortTiersDesc tiers
  match sorted.find? (fun t => t.hierarchy_level == 0) with
  | some t => some t
  | none => sorted.getLast?

/-- The downgrade scan: walk the descending tier list and pick the first tier
below the current one for which the customer passes that tier's own retention
evaluation; default to the base tier when none qualifies. -/
def downgradeScanTarget (w : World) (now : Int) (tiers : List Tier)
    (bronzeTier : Tier) (customer : Customer) (currentTier : Tier) : Tier :=
  match tiers.find? (fun t =>
    t.id != currentTier.id &&
    decide (t.hierarchy_level < currentTier.hierarchy_level) &&
    checkTierRetentionEligibility w customer t now) with
  | some t => t
  | none => bronzeTier

/-- The priority-protection clamp applied to the scan result before any
write: a target below the guaranteed minimum is replaced by the minimum tier. -/
def clampToPriority (newTier : Tier) (priorityTier? : Option Tier) : Tier :=
  match priorityTier? with
  | some priorityTier =>
    if newTier.hierarchy_level < priorityTier.hierarchy_level then priorityTier
    else newTier
  | none => newTier

/-- The `tier_protection_adjustment` transaction emitted by the immediate
priority upgrade. -/
def protectionTx (now : Int) (customer : Customer) (_currentTier priorityTier : Tier) :
    Transaction :=
  { customer_id := customer.id, transaction_type := .tier_protection_adjustment,
    points := 0,
    transaction_id := "TIER-PROTECT-" ++ toString now ++ "-" ++ toString customer.id,
    status := .completed,
    note := "Priority protection enforced: upgraded to " ++ priorityTier.name ++
      " minimum tier",
    transaction_date := now }

/-- The `tier_downgrade` audit transaction. -/
def downgradeTx (now : Int) (customer : Customer) (currentTier newTier : Tier) :
    Transaction :=
  { customer_id := customer.id, transaction_type := .tier_downgrade, points := 0,
    transaction_id := "TIER-DOWN-" ++ toString now ++ "-" ++ toString customer.id,
    status := .completed,
    note := "Tier downgraded from " ++ currentTier.name ++ " to " ++ newTier.name ++
      " due to insufficient activity",
    transaction_date := now }

/-- The retention/downgrade phase for one customer (the body after the
priority-upgrade branch): retain when eligible, otherwise scan, clamp to the
priority minimum, and downgrade only when the final target is strictly lower. -/
def downgradePhase (now : Int) (tiers : List Tier) (bronzeTier : Tier)
    (w : World) (customer : Customer) (currentTier : Tier)
    (priorityTier? : Option Tier) : World :=
  if checkTierRetentionEligibility w customer currentTier now then w
  else
    let newTier :=
      clampToPriority (downgradeScanTarget w now tiers bronzeTier customer currentTier)
        priorityTier?
    if newTier.hierarchy_level < currentTier.hierarchy_level then
      if newTier.id == currentTier.id then w
      else
        { w with
          customers := updateTier w.customers customer.id newTier.id,
          transactions := w.transactions ++ [downgradeTx now customer currentTier newTier] }
    else w

/-- Step 2 of `processPointsAndTiers` for one snapshot customer: resolve the
current tier and any active priority record; an unresolvable current tier
makes the eligibility check throw, which the per-customer catch swallows
(customer untouched); a current tier strictly below an active priority
minimum triggers the immediate protection upgrade and skips the downgrade
evaluation; otherwise run the retention/downgrade phase. -/
def customerTierStep (now : Int) (tiers : List Tier) (bronzeTier : Tier)
    (w : World) (customer : Customer) : World :=
  let currentTier? := w.tiers.find? (fun t => t.id == customer.tier)
  let priorityRecord? := w.priority.find? (fun p =>
    p.customer_id == customer.id && p.is_active)
  let priorityTier? := priorityRecord?.bind (fun p =>
    w.tiers.find? (fun t => t.id == p.tier_id))
  match currentTier? with
  | none => w
  | some currentTier =>
    match priorityTier? with
    | some priorityTier =>
      if currentTier.hierarchy_level < priorityTier.hierarchy_level then
        { w with
          customers := updateTier w.customers customer.id priorityTier.id,
          transactions := w.transactions ++
            [protectionTx now customer currentTier priorityTier] }
      else downgradePhase now tiers bronzeTier w customer currentTier (some priorityTier)
    | none => downgradePhase now tiers bronzeTier w customer currentTier none

/-- The scheduled processor (`processPointsAndTiers`): expire stale ledger
entries, then evaluate priority protection and tier retention for every
customer outside the base tier.  When no base tier exists the run throws and
the surrounding `SafeTransaction` aborts, leaving the world unchanged. -/
def processPointsAndTiers (now : Int) (w : World) : World :=
  let w1 := expireSweep now w
  let tiers := sortTiersDesc w1.tiers
  match baseTier w1.tiers with
  | none => w
  | some bronzeTier =>
    let customersToCheck := w1.customers.filter (fun c => c.tier != bronzeTier.id)
    customersToCheck.foldl (customerTierStep now tiers bronzeTier) w1

/-- An empty database state, for building concrete scenarios. -/
def emptyWorld : World :=
  { customers := [], tiers := [], ledger := [], transactions := [],
    criteria := [], priority := [], pointCriteria := [], appTypes := [] }

/-- Bronze base tier used in the concrete scenarios. -/
def tBronze : Tier := { id := 1, name := "Bronze", hierarchy_level := 0, points_required := 0 }

/-- Silver tier (hierarchy 1) used in the concrete scenarios. -/
def tSilver : Tier := { id := 2, name := "Silver", hierarchy_level := 1, points_required := 100 }

/-- Gold tier (hierarchy 2) used in the concrete scenarios. -/
def tGold : Tier := { id := 3, name := "Gold", hierarchy_level := 2, points_required := 200 }

/-- Scenario world for the priority-protection claim: a customer sitting at
Bronze (the base tier) with an active priority record guaranteeing Silver. -/
def wBronzeProtected : World :=
  { emptyWorld with
    tiers := [tBronze, tSilver],
    customers := [{ id := 10, customer_id := "CUST010", tier := 1,
                    total_points := 0, coins := 0 }],
    priority := [{ customer_id := 10, tier_id := 2, is_active := true }] }

/-- Scenario world for the amended priority-protection claim: a customer at
Silver (not the base tier) with an active priority record guaranteeing Gold. -/
def wSilverProtected : World :=
  { emptyWorld with
    tiers := [tBronze, tSilver, tGold],
    customers := [{ id := 11, customer_id := "CUST011", tier := 2,
                    total_points := 0, coins := 0 }],
    priority := [{ customer_id := 11, tier_id := 3, is_active := true }] }

/-- Scenario world for insufficient-points redemption: a single 5-point
active entry against a request of 10. -/
def wShort : World :=
  { emptyWorld with
    tiers := [tBronze],
    customers := [{ id := 1, customer_id := "C1", tier := 1,
                    total_points := 5, coins := 0 }],
    ledger := [{ id := 1, customer_id := 1, points := 5, earnedAt := 0,
                 expiryDate := 100, status := .active }] }

/-- Scenario ledger for the FIFO walk: 50 points earned day 1 expiring day
10, and 100 points earned day 5 expiring day 30, both active. -/
def fifoScenarioLedger : List LedgerEntry :=
  [{ id := 1, customer_id := 7, points := 50, earnedAt := 1, expiryDate := 10,
     status := .active },
   { id := 2, customer_id := 7, points := 100, earnedAt := 5, expiryDate := 30,
     status := .active }]

/-- Gold tier requiring 100 points, one level above Bronze, for the
retention scenarios. -/
def tierGold100 : Tier :=
  { id := 2, name := "Gold", hierarchy_level := 1, points_required := 100 }

/-- Gold customer with 40 points for the no-criteria retention scenario. -/
def custGold40 : Customer :=
  { id := 5, customer_id := "C5", tier := 2, total_points := 40, coins := 0 }

/-- Gold customer with 150 points for the criteria retention scenario. -/
def custGold150 : Customer :=
  { id := 5, customer_id := "C5", tier := 2, total_points := 150, coins := 0 }

/-- Active retention criteria for the Gold tier: two consecutive 30-day
windows of at least 100 net earned points. -/
def critGold : TierEligibilityCriteria :=
  { tier_id := 2, is_active := true, evaluation_period_days := 30,
    consecutive_periods_required := 2, net_earning_required := 100 }

/-- Scenario world for retention without criteria: a Gold customer with 40
points against a 100-point requirement, and a base tier requiring 50 so that
no lower tier qualifies either. -/
def wGoldNoCriteria : World :=
  { emptyWorld with
    tiers := [{ tBronze with points_required := 50 }, tierGold100],
    customers := [custGold40] }

/-- Scenario world for retention with criteria: active criteria configured
for the Gold tier and a customer with a non-negative balance. -/
def wGoldCriteria : World :=
  { emptyWorld with
    tiers := [tBronze, tierGold100],
    customers := [custGold150],
    criteria := [critGold] }

/-- Scenario world for the expiry sweep: one active entry expiring at day 12,
swept first at day 10 and again at day 15. -/
def wSweep : World :=
  { emptyWorld with
    tiers := [tBronze],
    customers := [{ id := 1, customer_id := "C1", tier := 1,
                    total_points := 5, coins := 0 }],
    ledger := [{ id := 1, customer_id := 1, points := 5, earnedAt := 0,
                 expiryDate := 12, status := .active }] }

/-- Scenario world for the manual grant/reduce claims: one customer whose
active-ledger sum equals `total_points`, and a point criteria with a fixed
10-point rule resolvable by ObjectId. -/
def wManual : World :=
  { emptyWorld with
    tiers := [tBronze],
    customers := [{ id := 1, customer_id := "C1", tier := 1,
                    total_points := 5, coins := 2 }],
    ledger := [{ id := 1, customer_id := 1, points := 5, earnedAt := 0,
                 expiryDate := 100, status := .active }],
    pointCriteria := [{ id := "aaaaaaaaaaaaaaaaaaaaaaaa", unique_code := "PROMO1",
                        pointSystem := [{ pointType := "fixed", pointRate := 10 }] }] }

/-- A single valid bulk row targeting the `wManual` customer. -/
def rowValid : BulkRow :=
  { has_customer_id := true, has_point_criteria := true, has_note := true,
    customer_id := "C1", points := some 10,
    point_criteria := "PROMO1", note := "bonus" }

/-- A bulk row with non-positive points, failing validation. -/
def rowBadPoints : BulkRow :=
  { has_customer_id := true, has_point_criteria := true, has_note := true,
    customer_id := "C1", points := some 0,
    point_criteria := "PROMO1", note := "bonus" }

/-- Mapping a list with a function that preserves a Bool predicate commutes
with `find?`. -/
theorem find?_map_eq {α : Type} (g : α → α) (p : α → Bool)
    (hp : ∀ a, p (g a) = p a) :
    ∀ l : List α, (l.map g).find? p = (l.find? p).map g := by
  intro l
  induction l with
  | nil => rfl
  | cons a l ih =>
    simp only [List.map_cons, List.find?_cons, hp a]
    cases h : p a
    · simpa using ih
    · rfl

/-- A keyed conditional update commutes with `find?` on a different key. -/
theorem find?_updateAt_ne {α : Type} (key : α → Nat) (f : α → α)
    (hf : ∀ a, key (f a) = key a) (uid cid : Nat) (h : uid ≠ cid)
    (l : List α) :
    (l.map (fun a => if key a == uid then f a else a)).find? (fun a => key a == cid) =
      l.find? (fun a => key a == cid) := by
  rw [find?_map_eq _ _ (fun a => by by_cases hk : key a = uid <;> simp [hk, hf])]
  cases hfind : l.find? (fun a => key a == cid) with
  | none => rfl
  | some r =>
    have hr : key r = cid := by simpa using List.find?_some hfind
    simp [hr, Ne.symm h]

/-- A keyed conditional update applies the update to the record `find?`
locates on the same key. -/
theorem find?_updateAt_self {α : Type} (key : α → Nat) (f : α → α)
    (hf : ∀ a, key (f a) = key a) (uid : Nat) (l : List α) :
    (l.map (fun a => if key a == uid then f a else a)).find? (fun a => key a == uid) =
      (l.find? (fun a => key a == uid)).map f := by
  rw [find?_map_eq _ _ (fun a => by by_cases hk : key a = uid <;> simp [hk, hf])]
  cases hfind : l.find? (fun a => key a == uid) with
  | none => rfl
  | some r =>
    have hr : key r = uid := by simpa using List.find?_some hfind
    simp [hr]

/-- Sorting by `earnedAt` preserves the points sum. -/
theorem sum_sortByEarnedAt (l : List LedgerEntry) :
    ((sortByEarnedAt l).map (fun e => e.points)).sum = (l.map (fun e => e.points)).sum :=
  List.Perm.sum_eq ((List.perm_insertionSort earnedBefore l).map (fun e => e.points))

/-- The total the FIFO walk sees equals `availablePoints`. -/
theorem validEntries_sum (ledger : List LedgerEntry) (cid : Nat) (now : Int) :
    ((validEntries ledger cid now).map (fun e => e.points)).sum =
      availablePoints ledger cid now :=
  sum_sortByEarnedAt _

/-- Claim C2 — requesting more than the available active, non-expired sum
fails without touching the ledger: `redeemPointsFIFO` reports the available
sum and the requested amount (with available < requested), and `reducePoints`
surfaces the same failure leaving the whole world unchanged. -/
theorem redeem_insufficient_no_mutation (w : World) (cid : Nat) (amt now : Int)
    (requested_by note : String) (c : Customer)
    (hc : getCustomer w cid = some c)
    (hamt : 0 < amt)
    (hshort : availablePoints w.ledger c.id now < amt) :
    (redeemPointsFIFO w.ledger c.id amt now).1.success = false ∧
    (redeemPointsFIFO w.ledger c.id amt now).2 = w.ledger ∧
    (redeemPointsFIFO w.ledger c.id amt now).1.availablePoints =
      availablePoints w.ledger c.id now ∧
    (redeemPointsFIFO w.ledger c.id amt now).1.availablePoints < amt ∧
    (redeemPointsFIFO w.ledger c.id amt now).1.message =
      "Insufficient points. Available: " ++ toString (availablePoints w.ledger c.id now) ++
        ", Requested: " ++ toString amt ∧
    reducePoints w now cid amt requested_by note =
      (.fifoFailed ("Insufficient points. Available: " ++
        toString (availablePoints w.ledger c.id now) ++ ", Requested: " ++ toString amt), w) := by
  have hfifo : redeemPointsFIFO w.ledger c.id amt now =
      ({ success := false, availablePoints := availablePoints w.ledger c.id now,
         redeemedPoints := 0,
         message := "Insufficient points. Available: " ++
           toString (availablePoints w.ledger c.id now) ++ ", Requested: " ++ toString amt },
        w.ledger) := by
    simp only [redeemPointsFIFO]
    rw [validEntries_sum]
    rw [if_pos hshort]
  refine ⟨by rw [hfifo], by rw [hfifo], by rw [hfifo], ?_, by rw [hfifo], ?_⟩
  · rw [hfifo]; exact hshort
  · simp only [reducePoints, hc]
    rw [if_neg (not_le.mpr hamt)]
    simp only [hfifo]
    rfl

/-- Witness for claim C2 at a concrete world: a 5-point ledger against a
10-point request. -/
theorem redeem_insufficient_no_mutation_witness :
    (redeemPointsFIFO wShort.ledger 1 10 0).1.success = false ∧
    (redeemPointsFIFO wShort.ledger 1 10 0).2 = wShort.ledger ∧
    (redeemPointsFIFO wShort.ledger 1 10 0).1.availablePoints =
      availablePoints wShort.ledger 1 0 ∧
    (redeemPointsFIFO wShort.ledger 1 10 0).1.availablePoints < 10 ∧
    (redeemPointsFIFO wShort.ledger 1 10 0).1.message =
      "Insufficient points. Available: " ++ toString (availablePoints wShort.ledger 1 0) ++
        ", Requested: " ++ toString (10 : Int) ∧
    reducePoints wShort 0 1 10 "app" "note" =
      (.fifoFailed ("Insufficient points. Available: " ++
        toString (availablePoints wShort.ledger 1 0) ++ ", Requested: " ++
        toString (10 : Int)), wShort) :=
  redeem_insufficient_no_mutation wShort 1 10 0 "app" "note"
    { id := 1, customer_id := "C1", tier := 1, total_points := 5, coins := 0 }
    (by decide) (by decide) (by decide)

/-- Every breakdown item except possibly the last records a fully consumed
entry. -/
theorem fifoWalk_dropLast_full (now : Int) :
    ∀ (entries : List LedgerEntry) (remaining : Int),
      ∀ u ∈ ((fifoWalk now remaining entries).2.1).dropLast, u.fully_redeemed = true := by
  intro entries
  induction entries with
  | nil => intro r u hu; simp [fifoWalk] at hu
  | cons e rest ih =>
    intro r u hu
    by_cases h0 : r ≤ 0
    · simp [fifoWalk, h0] at hu
    · by_cases hfull : e.points ≤ r
      · simp only [fifoWalk, if_neg h0, if_pos hfull] at hu
        cases htail : (fifoWalk now (r - e.points) rest).2.1 with
        | nil => rw [htail] at hu; simp at hu
        | cons v vs =>
          rw [htail, List.dropLast_cons₂] at hu
          rcases List.mem_cons.mp hu with h | h
          · rw [h]
          · have := ih (r - e.points) u (by rw [htail]; exact h)
            exact this
      · simp [fifoWalk, h0, hfull] at hu

/-- Every fully consumed breakdown item corresponds to an updated entry
marked `redeemed` with points zeroed. -/
theorem fifoWalk_full_spec (now : Int) :
    ∀ (entries : List LedgerEntry) (remaining : Int),
      ∀ u ∈ (fifoWalk now remaining entries).2.1, u.fully_redeemed = true →
        ∃ e ∈ (fifoWalk now remaining entries).1,
          e.id = u.loyalty_point_id ∧ e.status = .redeemed ∧ e.points = 0 ∧
          u.points_used = u.original_points := by
  intro entries
  induction entries with
  | nil => intro r u hu; simp [fifoWalk] at hu
  | cons e rest ih =>
    intro r u hu hfullu
    by_cases h0 : r ≤ 0
    · simp [fifoWalk, h0] at hu
    · by_cases hfull : e.points ≤ r
      · simp only [fifoWalk, if_neg h0, if_pos hfull] at hu ⊢
        rcases List.mem_cons.mp hu with h | h
        · refine ⟨_, List.mem_cons_self _ _, ?_⟩
          rw [h]
          exact ⟨rfl, rfl, rfl, rfl⟩
        · obtain ⟨e2, he2, hspec⟩ := ih (r - e.points) u h hfullu
          exact ⟨e2, List.mem_cons_of_mem _ he2, hspec⟩
      · simp only [fifoWalk, if_neg h0, if_neg hfull] at hu
        rcases List.mem_cons.mp hu with h | h
        · rw [h] at hfullu; simp at hfullu
        · simp at h

/-- Every partially consumed breakdown item corresponds to an updated entry
that keeps its (active) status and is only decremented. -/
theorem fifoWalk_partial_spec (now : Int) :
    ∀ (entries : List LedgerEntry) (remaining : Int),
      (∀ e ∈ entries, e.status = .active) →
      ∀ u ∈ (fifoWalk now remaining entries).2.1, u.fully_redeemed = false →
        ∃ e ∈ (fifoWalk now remaining entries).1,
          e.id = u.loyalty_point_id ∧ e.status = .active ∧
          e.points = u.original_points - u.points_used := by
  intro entries
  induction entries with
  | nil => intro r _ u hu; simp [fifoWalk] at hu
  | cons e rest ih =>
    intro r hact u hu hpartu
    by_cases h0 : r ≤ 0
    · simp [fifoWalk, h0] at hu
    · by_cases hfull : e.points ≤ r
      · simp only [fifoWalk, if_neg h0, if_pos hfull] at hu ⊢
        rcases List.mem_cons.mp hu with h | h
        · rw [h] at hpartu; simp at hpartu
        · obtain ⟨e2, he2, hspec⟩ :=
            ih (r - e.points) (fun x hx => hact x (List.mem_cons_of_mem _ hx)) u h hpartu
          exact ⟨e2, List.mem_cons_of_mem _ he2, hspec⟩
      · simp only [fifoWalk, if_neg h0, if_neg hfull] at hu ⊢
        rcases List.mem_cons.mp hu with h | h
        · refine ⟨_, List.mem_cons_self _ _, ?_⟩
          rw [h]
          exact ⟨rfl, hact e (List.mem_cons_self _ _), rfl⟩
        · simp at h

/-- Claim C3 — the FIFO walk consumes the customer's active, non-expired
entries in ascending `earnedAt` order, fully redeemed entries are marked
`redeemed` with points zeroed, only the final partially consumed entry stays
`active` and is decremented, a per-entry breakdown is accumulated; and on the
two-entry scenario (50 points earned day 1 / 100 points earned day 5), a
60-point redemption fully redeems the day-1 entry and leaves the day-5 entry
active with 90 points. -/
theorem fifo_walk_order_and_consumption (entries : List LedgerEntry)
    (hact : ∀ e ∈ entries, e.status = .active) :
    (∀ (ledger : List LedgerEntry) (cid : Nat) (now : Int),
      List.Sorted earnedBefore (validEntries ledger cid now) ∧
      (validEntries ledger cid now).Perm (ledger.filter (fun e =>
        e.customer_id == cid && decide (now ≤ e.expiryDate) && e.status == .active))) ∧
    (∀ (now remaining : Int),
      (∀ u ∈ ((fifoWalk now remaining entries).2.1).dropLast, u.fully_redeemed = true) ∧
      (∀ u ∈ (fifoWalk now remaining entries).2.1, u.fully_redeemed = true →
        ∃ e ∈ (fifoWalk now remaining entries).1,
          e.id = u.loyalty_point_id ∧ e.status = .redeemed ∧ e.points = 0 ∧
          u.points_used = u.original_points) ∧
      (∀ u ∈ (fifoWalk now remaining entries).2.1, u.fully_redeemed = false →
        ∃ e ∈ (fifoWalk now remaining entries).1,
          e.id = u.loyalty_point_id ∧ e.status = .active ∧
          e.points = u.original_points - u.points_used)) ∧
    redeemPointsFIFO fifoScenarioLedger 7 60 6 =
      ({ success := true, availablePoints := 150, redeemedPoints := 60,
         message := "Successfully redeemed 60 points using FIFO",
         usedLoyaltyPoints :=
           [{ loyalty_point_id := 1, original_points := 50, points_used := 50,
              fully_redeemed := true, expiryDate := 10, earnedAt := 1 },
            { loyalty_point_id := 2, original_points := 100, points_used := 10,
              fully_redeemed := false, expiryDate := 30, earnedAt := 5 }] },
       [{ id := 1, customer_id := 7, points := 0, earnedAt := 1, expiryDate := 10,
          status := .redeemed, redeemedAt := some 6 },
        { id := 2, customer_id := 7, points := 90, earnedAt := 5, expiryDate := 30,
          status := .active, redeemedAt := none }]) := by
  refine ⟨fun ledger cid now =>
    ⟨List.sorted_insertionSort earnedBefore _, List.perm_insertionSort earnedBefore _⟩,
    fun now remaining =>
      ⟨fifoWalk_dropLast_full now entries remaining,
       fifoWalk_full_spec now entries remaining,
       fifoWalk_partial_spec now entries remaining hact⟩,
    by decide⟩

/-- Witness for claim C3: in the concrete scenario the partially consumed
day-5 entry stays active with 90 points. -/
theorem fifo_walk_order_and_consumption_witness :
    ∃ e ∈ (fifoWalk 6 60 (validEntries fifoScenarioLedger 7 6)).1,
      e.id = 2 ∧ e.status = .active ∧ e.points = 100 - 10 := by
  have h := fifo_walk_order_and_consumption (validEntries fifoScenarioLedger 7 6) (by decide)
  exact (h.2.1 6 60).2.2 ⟨2, 100, 10, false, 30, 5⟩ (by decide) (by decide)

/-- With active criteria and a non-negative balance, retention evaluation is
exactly the consecutive-period check. -/
theorem check_eq_consec (w : World) (c : Customer) (t : Tier) (now : Int)
    (crit : TierEligibilityCriteria)
    (hcrit : w.criteria.find? (fun cr => cr.tier_id == t.id && cr.is_active) = some crit)
    (hpos : 0 ≤ c.total_points) :
    checkTierRetentionEligibility w c t now = consecCheck w c.id now crit := by
  simp only [checkTierRetentionEligibility, hcrit]
  rw [if_pos hpos]

/-- The consecutive-period loop returns `false` as soon as one window fails,
regardless of the windows after it. -/
theorem consecFrom_first_failure (w : World) (cid : Nat) (now : Int)
    (crit : TierEligibilityCriteria) :
    ∀ (k fuel i : Nat), k < fuel →
      periodOK w cid crit now (i + k) = false →
      (∀ j, j < k → periodOK w cid crit now (i + j) = true) →
      consecFrom w cid now crit i fuel = false := by
  intro k
  induction k with
  | zero =>
    intro fuel i hk hfail _
    cases fuel with
    | zero => exact absurd hk (Nat.lt_irrefl 0)
    | succ f =>
      rw [Nat.add_zero] at hfail
      simp only [consecFrom, hfail]
      simp
  | succ k ih =>
    intro fuel i hk hfail hpass
    cases fuel with
    | zero => exact absurd hk (Nat.not_lt_zero _)
    | succ f =>
      have h0 : periodOK w cid crit now i = true := by
        have := hpass 0 (Nat.succ_pos k)
        rwa [Nat.add_zero] at this
      simp only [consecFrom, h0, if_true]
      refine ih f (i + 1) (by omega) ?_ ?_
      · rw [show i + 1 + k = i + (k + 1) by omega]
        exact hfail
      · intro j hj
        rw [show i + 1 + j = i + (j + 1) by omega]
        exact hpass (j + 1) (by omega)

/-- Claim C6 — with an active criteria record and a non-negative balance,
retention is decided entirely by the consecutive-period check: the result
does not depend on `points_required`, and the first failing window forces a
downgrade verdict regardless of the remaining windows (so the points-threshold
fall-through is unreachable). -/
theorem retention_criteria_consecutive_only (w : World) (c : Customer) (t : Tier)
    (now : Int) (crit : TierEligibilityCriteria)
    (hcrit : w.criteria.find? (fun cr => cr.tier_id == t.id && cr.is_active) = some crit)
    (hpos : 0 ≤ c.total_points) :
    checkTierRetentionEligibility w c t now = consecCheck w c.id now crit ∧
    (∀ q : Int, checkTierRetentionEligibility w c { t with points_required := q } now =
      checkTierRetentionEligibility w c t now) ∧
    (∀ k, k < crit.consecutive_periods_required →
      periodOK w c.id crit now k = false →
      (∀ j, j < k → periodOK w c.id crit now j = true) →
      checkTierRetentionEligibility w c t now = false) := by
  refine ⟨check_eq_consec w c t now crit hcrit hpos, ?_, ?_⟩
  · intro q
    rw [check_eq_consec w c { t with points_required := q } now crit hcrit hpos,
      check_eq_consec w c t now crit hcrit hpos]
  · intro k hk hfail hpass
    rw [check_eq_consec w c t now crit hcrit hpos]
    unfold consecCheck
    refine consecFrom_first_failure w c.id now crit k crit.consecutive_periods_required 0 hk ?_ ?_
    · rw [Nat.zero_add]; exact hfail
    · intro j hj
      rw [Nat.zero_add]; exact hpass j hj

/-- Witness for claim C6 at the concrete criteria world. -/
theorem retention_criteria_consecutive_only_witness :
    checkTierRetentionEligibility wGoldCriteria custGold150 tierGold100 0 =
      consecCheck wGoldCriteria 5 0 critGold :=
  (retention_criteria_consecutive_only wGoldCriteria custGold150 tierGold100 0 critGold
    (by decide) (by decide)).1

/-- Claim C7 — with no active criteria, retention holds exactly when
`total_points` reaches `points_required`; the Gold-at-40/100 scenario is
evaluated as downgrade; and when no lower tier passes its own evaluation the
scan target defaults to the base tier (in the concrete scenario the customer
lands on the base tier with one downgrade transaction). -/
theorem retention_without_criteria (w : World) (c : Customer) (t : Tier) (now : Int)
    (hnone : w.criteria.find? (fun cr => cr.tier_id == t.id && cr.is_active) = none) :
    (checkTierRetentionEligibility w c t now = true ↔ t.points_required ≤ c.total_points) ∧
    (∀ (w2 : World) (now2 : Int) (tiers : List Tier) (bt : Tier) (c2 : Customer) (ct : Tier),
      tiers.find? (fun t2 => t2.id != ct.id &&
        decide (t2.hierarchy_level < ct.hierarchy_level) &&
        checkTierRetentionEligibility w2 c2 t2 now2) = none →
      downgradeScanTarget w2 now2 tiers bt c2 ct = bt) ∧
    checkTierRetentionEligibility wGoldNoCriteria custGold40 tierGold100 0 = false ∧
    customerTier (processPointsAndTiers 0 wGoldNoCriteria) 5 = some 1 ∧
    txCount (processPointsAndTiers 0 wGoldNoCriteria).transactions 5 .tier_downgrade = 1 := by
  refine ⟨?_, ?_, by decide, by decide, by decide⟩
  · simp only [checkTierRetentionEligibility, hnone]
    exact decide_eq_true_iff
  · intro w2 now2 tiers bt c2 ct h
    simp only [downgradeScanTarget, h]

/-- Witness for claim C7 at the concrete no-criteria world. -/
theorem retention_without_criteria_witness :
    checkTierRetentionEligibility wGoldNoCriteria custGold40 tierGold100 0 = true ↔
      (100 : Int) ≤ 40 :=
  (retention_without_criteria wGoldNoCriteria custGold40 tierGold100 0 (by decide)).1

/-- The ledger component of the sweep fold is the fold of per-entry
expiry marks. -/
theorem sweep_ledger_fold (now : Int) :
    ∀ (S : List LedgerEntry) (w : World),
      (S.foldl (processExpired now) w).ledger =
        S.foldl (fun led e => markExpired e.id led) w.ledger := by
  intro S
  induction S with
  | nil => intro w; rfl
  | cons e S ih =>
    intro w
    rw [List.foldl_cons, List.foldl_cons, ih]
    rfl

/-- An entry still active after a mark was untouched by that mark. -/
theorem markExpired_active_mem (eid : Nat) (led : List LedgerEntry)
    (x : LedgerEntry) (hx : x ∈ markExpired eid led) (hact : x.status = .active) :
    x ∈ led ∧ x.id ≠ eid := by
  obtain ⟨y, hy, hxy⟩ := List.mem_map.mp hx
  by_cases h : y.id = eid
  · rw [if_pos (by simpa using h)] at hxy
    rw [← hxy] at hact
    simp at hact
  · rw [if_neg (by simpa using h)] at hxy
    rw [← hxy]
    exact ⟨hy, h⟩

/-- An entry still active after the whole mark fold was untouched by every
mark in the snapshot. -/
theorem foldMark_active_mem :
    ∀ (S : List LedgerEntry) (led : List LedgerEntry) (x : LedgerEntry),
      x ∈ S.foldl (fun l e => markExpired e.id l) led → x.status = .active →
      x ∈ led ∧ ∀ e ∈ S, x.id ≠ e.id := by
  intro S
  induction S with
  | nil => intro led x hx _; exact ⟨hx, by intro e he; simp at he⟩
  | cons e S ih =>
    intro led x hx hact
    rw [List.foldl_cons] at hx
    obtain ⟨hmem, hids⟩ := ih (markExpired e.id led) x hx hact
    obtain ⟨hmem0, hid0⟩ := markExpired_active_mem e.id led x hmem hact
    refine ⟨hmem0, ?_⟩
    intro e2 he2
    rcases List.mem_cons.mp he2 with h | h
    · rw [h]; exact hid0
    · exact hids e2 h

/-- Entries still active after the sweep are original entries that were not
yet past expiry. -/
theorem sweep_active_entries (now : Int) (w : World) (x : LedgerEntry)
    (hx : x ∈ (expireSweep now w).ledger) (hact : x.status = .active) :
    x ∈ w.ledger ∧ ¬x.expiryDate < now := by
  rw [expireSweep, sweep_ledger_fold] at hx
  obtain ⟨hmem, hids⟩ := foldMark_active_mem (newlyExpired now w.ledger) w.ledger x hx hact
  refine ⟨hmem, fun hlt => ?_⟩
  have hxin : x ∈ newlyExpired now w.ledger := by
    unfold newlyExpired
    rw [List.mem_filter]
    exact ⟨hmem, by simp [hact, hlt]⟩
  exact hids x hxin rfl

/-- Counterexample to claim C8 as stated: with the second `now` strictly
after the first, an entry whose expiry lies between the two runs is newly
expired by the second run, which emits an expire transaction and debits the
customer. -/
theorem sweep_rerun_counterexample :
    (10 : Int) ≤ 15 ∧
    (newlyExpired 15 (expireSweep 10 wSweep).ledger).length = 1 ∧
    (expireSweep 15 (expireSweep 10 wSweep)).transactions.length =
      (expireSweep 10 wSweep).transactions.length + 1 ∧
    customerTotal (expireSweep 15 (expireSweep 10 wSweep)) 1 ≠
      customerTotal (expireSweep 10 wSweep) 1 := by
  decide

/-- Claim C8 (amended) — rerunning the expiry sweep with a second `now` at or
after the first finds zero newly-expired entries, emits no expire
transactions, and debits no balance, provided no ledger entry's expiry falls
between the two nows (with equal nows this holds unconditionally): every
entry expired by the first run has status `expired` and is excluded by the
second sweep's filter. -/
theorem sweep_rerun_idempotent (w : World) (now1 now2 : Int)
    (_h12 : now1 ≤ now2)
    (hgap : ∀ e ∈ w.ledger, e.expiryDate < now2 → e.expiryDate < now1) :
    newlyExpired now2 (expireSweep now1 w).ledger = [] ∧
    expireSweep now2 (expireSweep now1 w) = expireSweep now1 w := by
  have hfilter : newlyExpired now2 (expireSweep now1 w).ledger = [] := by
    unfold newlyExpired
    rw [List.filter_eq_nil_iff]
    intro x hx
    intro hpred
    have hact : x.status = .active := by
      have := (Bool.and_eq_true _ _).mp hpred
      simpa using this.1
    have hlt2 : x.expiryDate < now2 := by
      have := (Bool.and_eq_true _ _).mp hpred
      simpa using this.2
    obtain ⟨hmem, hnot1⟩ := sweep_active_entries now1 w x hx hact
    exact hnot1 (hgap x hmem hlt2)
  refine ⟨hfilter, ?_⟩
  show (newlyExpired now2 (expireSweep now1 w).ledger).foldl (processExpired now2)
      (expireSweep now1 w) = expireSweep now1 w
  rw [hfilter]
  rfl

/-- Witness for the amended claim C8: rerunning the sweep at the same `now`. -/
theorem sweep_rerun_idempotent_witness :
    newlyExpired 10 (expireSweep 10 wSweep).ledger = [] ∧
    expireSweep 10 (expireSweep 10 wSweep) = expireSweep 10 wSweep :=
  sweep_rerun_idempotent wSweep 10 10 le_rfl (fun _ _ h => h)

/-- Every error produced by `validateRow` names its row number. -/
theorem validateRow_error_shape (w : World) (n : Nat) (row : BulkRow) (m : String)
    (h : validateRow w n row = .error m) : ∃ rest, m = mkRowError n rest := by
  unfold validateRow at h
  repeat' split at h
  all_goals
    first
      | (injection h with h2; exact ⟨_, h2.symm⟩)
      | exact Except.noConfusion h

/-- The row at index `j` appears with row number `n + j` in the numbered
row list. -/
theorem withRowNumbers_mem :
    ∀ (rows : List BulkRow) (n j : Nat) (r : BulkRow),
      rows.get? j = some r → (n + j, r) ∈ withRowNumbers n rows := by
  intro rows
  induction rows with
  | nil => intro n j r h; simp at h
  | cons a rows ih =>
    intro n j r h
    cases j with
    | zero =>
      rw [List.get?_cons_zero] at h
      injection h with h2
      rw [Nat.add_zero, ← h2]
      exact List.mem_cons_self _ _
    | succ j =>
      rw [List.get?_cons_succ] at h
      have hmem := ih (n + 1) j r h
      rw [show n + (j + 1) = n + 1 + j by omega]
      exact List.mem_cons_of_mem _ hmem

/-- A failing row's error message belongs to the batch error list. -/
theorem mem_bulkValidationErrors (w : World) (rows : List BulkRow)
    (j : Nat) (row : BulkRow) (m : String)
    (hj : rows.get? j = some row)
    (hrow : validateRow w (j + 2) row = .error m) :
    m ∈ bulkValidationErrors w rows := by
  unfold bulkValidationErrors
  rw [List.mem_filterMap]
  refine ⟨(j + 2, row), ?_, ?_⟩
  · have hmem := withRowNumbers_mem rows 2 j row hj
    rw [show 2 + j = j + 2 by omega] at hmem
    exact hmem
  · simp [hrow]

/-- Claim C5 — a bulk batch with at least one invalid row is rejected as a
whole: the result is the full row-level error list, each failing row's
message (naming its row number) is in that list, and the world is unchanged
(zero transactions, ledger entries, or balance writes). -/
theorem bulk_validation_rejects_all (w : World) (calcExpiry : Option Nat → Int)
    (now : Int) (requested_by : String) (rows : List BulkRow)
    (ledgerOk : Nat → Bool) (tierUpgrade : Nat → Option Nat)
    (hreq : strTrim requested_by ≠ "")
    (j : Nat) (row : BulkRow) (m : String)
    (hj : rows.get? j = some row)
    (hrow : validateRow w (j + 2) row = .error m) :
    addPointsBulk w calcExpiry now requested_by rows ledgerOk tierUpgrade =
      (.validationFailed (bulkValidationErrors w rows), w) ∧
    m ∈ bulkValidationErrors w rows ∧
    (∃ rest, m = mkRowError (j + 2) rest) ∧
    (∀ (j2 : Nat) (r2 : BulkRow) (m2 : String), rows.get? j2 = some r2 →
      validateRow w (j2 + 2) r2 = .error m2 → m2 ∈ bulkValidationErrors w rows) := by
  have hmem := mem_bulkValidationErrors w rows j row m hj hrow
  refine ⟨?_, hmem, validateRow_error_shape w (j + 2) row m hrow,
    fun j2 r2 m2 hj2 hr2 => mem_bulkValidationErrors w rows j2 r2 m2 hj2 hr2⟩
  have hb : (strTrim requested_by == "") = false := beq_eq_false_iff_ne.mpr hreq
  have hne : rows.isEmpty = false := by
    cases rows with
    | nil => simp at hj
    | cons a l => rfl
  have herr : ((bulkValidationErrors w rows).isEmpty) = false := by
    cases hbe : bulkValidationErrors w rows with
    | nil => rw [hbe] at hmem; simp at hmem
    | cons a l => rfl
  simp [addPointsBulk, hb, hne, herr]

/-- Witness for claim C5: a two-row batch whose second row has non-positive
points is rejected wholesale with the row named. -/
theorem bulk_validation_rejects_all_witness :
    addPointsBulk wManual (fun _ => 100) 0 "app" [rowValid, rowBadPoints]
        (fun _ => true) (fun _ => none) =
      (.validationFailed (bulkValidationErrors wManual [rowValid, rowBadPoints]), wManual) ∧
    "Row 3: points must be positive" ∈ bulkValidationErrors wManual [rowValid, rowBadPoints] := by
  have h := bulk_validation_rejects_all wManual (fun _ => 100) 0 "app"
    [rowValid, rowBadPoints] (fun _ => true) (fun _ => none) (by decide) 1 rowBadPoints
    "Row 3: points must be positive" (by rfl) rfl
  exact ⟨h.1, h.2.1⟩

/-- Appending one transaction changes a customer/type count by one exactly
when the transaction matches. -/
theorem txCount_append (txs : List Transaction) (t : Transaction) (cid : Nat)
    (ty : TxType) :
    txCount (txs ++ [t]) cid ty =
      txCount txs cid ty +
        (if t.customer_id == cid && t.transaction_type == ty then 1 else 0) := by
  unfold txCount
  rw [List.filter_append, List.length_append]
  cases h : (t.customer_id == cid && t.transaction_type == ty) <;> simp [List.filter, h]

/-- The `$inc`-both update rewrites the customer `find?` locates. -/
theorem find?_incPointsAndCoins (l : List Customer) (cid : Nat) (δ : Int) :
    (incPointsAndCoins l cid δ).find? (fun c => c.id == cid) =
      (l.find? (fun c => c.id == cid)).map
        (fun c => { c with total_points := c.total_points + δ, coins := c.coins + δ }) :=
  find?_updateAt_self (fun c => c.id)
    (fun c => { c with total_points := c.total_points + δ, coins := c.coins + δ })
    (fun _ => rfl) cid l

/-- The `$inc`-total update rewrites the customer `find?` locates. -/
theorem find?_incTotalOnly (l : List Customer) (cid : Nat) (δ : Int) :
    (incTotalOnly l cid δ).find? (fun c => c.id == cid) =
      (l.find? (fun c => c.id == cid)).map
        (fun c => { c with total_points := c.total_points + δ }) :=
  find?_updateAt_self (fun c => c.id)
    (fun c => { c with total_points := c.total_points + δ })
    (fun _ => rfl) cid l

/-- The tier write rewrites the customer `find?` locates. -/
theorem find?_updateTier_self (l : List Customer) (uid tid : Nat) :
    (updateTier l uid tid).find? (fun c => c.id == uid) =
      (l.find? (fun c => c.id == uid)).map (fun c => { c with tier := tid }) :=
  find?_updateAt_self (fun c => c.id) (fun c => { c with tier := tid })
    (fun _ => rfl) uid l

/-- The tier write leaves other customers' `find?` untouched. -/
theorem find?_updateTier_ne (l : List Customer) (uid tid cid : Nat) (h : uid ≠ cid) :
    (updateTier l uid tid).find? (fun c => c.id == cid) =
      l.find? (fun c => c.id == cid) :=
  find?_updateAt_ne (fun c => c.id) (fun c => { c with tier := tid })
    (fun _ => rfl) uid cid h l

/-- The `$inc`-total update leaves other customers' `find?` untouched. -/
theorem find?_incTotalOnly_ne (l : List Customer) (uid cid : Nat) (δ : Int)
    (h : uid ≠ cid) :
    (incTotalOnly l uid δ).find? (fun c => c.id == cid) =
      l.find? (fun c => c.id == cid) :=
  find?_updateAt_ne (fun c => c.id)
    (fun c => { c with total_points := c.total_points + δ })
    (fun _ => rfl) uid cid h l

/-- After the grant's balance update and the best-effort tier side-call, the
granted customer's `total_points` and `coins` are both incremented by the
award. -/
theorem grant_balance_update (l : List Customer) (c : Customer) (δ : Int)
    (tu : Option Nat)
    (hc : l.find? (fun x => x.id == c.id) = some c) :
    ((applyTierUpgrade (incPointsAndCoins l c.id δ) c.id tu).find?
        (fun x => x.id == c.id)).map (fun x => x.total_points) =
      some (c.total_points + δ) ∧
    ((applyTierUpgrade (incPointsAndCoins l c.id δ) c.id tu).find?
        (fun x => x.id == c.id)).map (fun x => x.coins) =
      some (c.coins + δ) := by
  cases tu with
  | none =>
    simp only [applyTierUpgrade]
    rw [find?_incPointsAndCoins, hc]
    exact ⟨rfl, rfl⟩
  | some tid =>
    simp only [applyTierUpgrade]
    rw [find?_updateTier_self, find?_incPointsAndCoins, hc]
    exact ⟨rfl, rfl⟩

/-- A rule accepted by `getManualPointsForCriteria` awards a positive rate. -/
theorem manualRule_pos (crit : PointCriteria) (rule : PointRule)
    (h : getManualPointsForCriteria crit = .ok rule) : 0 < rule.pointRate := by
  unfold getManualPointsForCriteria at h
  split at h
  · exact Except.noConfusion h
  · split at h
    · exact Except.noConfusion h
    · rename_i hpos
      injection h with h2
      rw [← h2]
      exact lt_of_not_le hpos

/-- The bulk commit phase with failing ledger creation never touches the
ledger. -/
theorem bulk_fold_noledger (ce : Option Nat → Int) (now : Int) (aT : Option Nat) :
    ∀ (L : List EnrichedRow) (w : World),
      (L.foldl (bulkRowStep ce now aT (fun _ => false)) w).ledger = w.ledger := by
  intro L
  induction L with
  | nil => intro w; rfl
  | cons e L ih =>
    intro w
    rw [List.foldl_cons, ih]
    rfl

/-- The bulk tier side-call phase never touches the ledger. -/
theorem bulk_tier_fold_ledger (tU : Nat → Option Nat) :
    ∀ (L : List EnrichedRow) (w : World),
      (L.foldl (fun acc e =>
        { acc with customers :=
            applyTierUpgrade acc.customers e.customer.id (tU e.customer.id) }) w).ledger =
        w.ledger := by
  intro L
  induction L with
  | nil => intro w; rfl
  | cons e L ih =>
    intro w
    rw [List.foldl_cons, ih]

/-- Claim C9 — ledger-entry creation is best-effort: when
`LoyaltyPoints.create` fails, `addPointsIndividual` still commits the earn
transaction and the `total_points`/`coins` increments (so the active-ledger
sum drops below `total_points`), and `addPointsBulk` commits the whole batch
with an unchanged ledger. -/
theorem ledger_create_best_effort (w : World) (calcExpiry : Option Nat → Int)
    (now : Int) (cid : Nat) (pc requested_by note : String) (tierUpgrade : Option Nat)
    (c : Customer) (crit : PointCriteria) (rule : PointRule)
    (hc : getCustomer w cid = some c)
    (hcrit : resolvePointCriteria w pc = some crit)
    (hrule : getManualPointsForCriteria crit = .ok rule)
    (hsum : activeLedgerSum w.ledger c.id = c.total_points) :
    (addPointsIndividual w calcExpiry now cid pc requested_by note false tierUpgrade).1 =
      .success rule.pointRate (c.total_points + rule.pointRate) ∧
    (addPointsIndividual w calcExpiry now cid pc requested_by note false tierUpgrade).2.ledger =
      w.ledger ∧
    customerTotal
      (addPointsIndividual w calcExpiry now cid pc requested_by note false tierUpgrade).2 c.id =
      some (c.total_points + rule.pointRate) ∧
    customerCoins
      (addPointsIndividual w calcExpiry now cid pc requested_by note false tierUpgrade).2 c.id =
      some (c.coins + rule.pointRate) ∧
    txCount
      (addPointsIndividual w calcExpiry now cid pc requested_by note false tierUpgrade).2.transactions
      c.id .earn = txCount w.transactions c.id .earn + 1 ∧
    activeLedgerSum
      (addPointsIndividual w calcExpiry now cid pc requested_by note false tierUpgrade).2.ledger
      c.id < c.total_points + rule.pointRate ∧
    (∀ (w2 : World) (ce2 : Option Nat → Int) (now2 : Int) (rb2 : String)
       (rows : List BulkRow) (tU2 : Nat → Option Nat),
      strTrim rb2 ≠ "" → rows ≠ [] → bulkValidationErrors w2 rows = [] →
      (addPointsBulk w2 ce2 now2 rb2 rows (fun _ => false) tU2).2.ledger = w2.ledger ∧
      (addPointsBulk w2 ce2 now2 rb2 rows (fun _ => false) tU2).1 =
        .success (bulkEnrichedRows w2 rows).length) := by
  have hcid : c.id = cid := by simpa using List.find?_some hc
  have hcfind : w.customers.find? (fun x => x.id == c.id) = some c := by
    rw [hcid]; exact hc
  have hA : addPointsIndividual w calcExpiry now cid pc requested_by note false tierUpgrade =
      (.success rule.pointRate (c.total_points + rule.pointRate),
        { w with
          transactions := w.transactions ++
            [{ customer_id := c.id, transaction_type := .earn,
               points := rule.pointRate, transaction_id := "PROMO-" ++ crit.id,
               status := .completed, note := buildManualNote "addition" note,
               app_type := (findAppType w requested_by).map (fun a => a.id),
               transaction_date := now }],
          customers := applyTierUpgrade
            (incPointsAndCoins w.customers c.id rule.pointRate) c.id tierUpgrade }) := by
    simp only [addPointsIndividual, hc, hcrit, hrule]
    simp
  have hbal := grant_balance_update w.customers c rule.pointRate tierUpgrade hcfind
  have hpos := manualRule_pos crit rule hrule
  refine ⟨by rw [hA], by rw [hA], ?_, ?_, ?_, ?_, ?_⟩
  · rw [hA]; exact hbal.1
  · rw [hA]; exact hbal.2
  · rw [hA]
    show txCount (w.transactions ++ [_]) c.id .earn = _
    rw [txCount_append]
    simp
  · rw [hA]
    show activeLedgerSum w.ledger c.id < c.total_points + rule.pointRate
    rw [hsum]
    omega
  · intro w2 ce2 now2 rb2 rows tU2 hreq hrows herr
    have hb : (strTrim rb2 == "") = false := beq_eq_false_iff_ne.mpr hreq
    have hne : rows.isEmpty = false := by
      cases rows with
      | nil => exact absurd rfl hrows
      | cons a l => rfl
    constructor
    · simp only [addPointsBulk, hb, hne, herr]
      simp only [List.isEmpty_nil, Bool.not_false, Bool.false_eq_true, if_false,
        Bool.not_true, if_true]
      rw [bulk_tier_fold_ledger, bulk_fold_noledger]
    · simp [addPointsBulk, hb, hne, herr]

/-- Witness for claim C9 at the concrete manual world. -/
theorem ledger_create_best_effort_witness :
    (addPointsIndividual wManual (fun _ => 100) 0 1 "PROMO1" "app" "note" false none).2.ledger =
      wManual.ledger ∧
    customerTotal
      (addPointsIndividual wManual (fun _ => 100) 0 1 "PROMO1" "app" "note" false none).2 1 =
      some (5 + 10) ∧
    (addPointsBulk wManual (fun _ => 100) 0 "app" [rowValid] (fun _ => false)
      (fun _ => none)).2.ledger = wManual.ledger := by
  have h := ledger_create_best_effort wManual (fun _ => 100) 0 1 "PROMO1" "app" "note" none
    { id := 1, customer_id := "C1", tier := 1, total_points := 5, coins := 2 }
    { id := "aaaaaaaaaaaaaaaaaaaaaaaa", unique_code := "PROMO1",
      pointSystem := [{ pointType := "fixed", pointRate := 10 }] }
    { pointType := "fixed", pointRate := 10 } rfl rfl rfl rfl
  exact ⟨h.2.1, h.2.2.1,
    (h.2.2.2.2.2.2 wManual (fun _ => 100) 0 "app" [rowValid] (fun _ => none)
      (by decide) (by simp) rfl).1⟩

/-- Appending one entry adds its points to `availablePoints` exactly when it
is an active, non-expired entry of the customer. -/
theorem availablePoints_append (l : List LedgerEntry) (e : LedgerEntry)
    (cid : Nat) (now : Int) :
    availablePoints (l ++ [e]) cid now =
      availablePoints l cid now +
        (if e.customer_id == cid && decide (now ≤ e.expiryDate) && e.status == .active
         then e.points else 0) := by
  unfold availablePoints
  rw [List.filter_append, List.map_append, List.sum_append]
  cases h : (e.customer_id == cid && decide (now ≤ e.expiryDate) && e.status == .active) <;>
    simp [List.filter, h]

/-- Appending a matching active entry adds exactly its points to
`availablePoints`. -/
theorem availablePoints_append_one (l : List LedgerEntry) (e : LedgerEntry)
    (cid : Nat) (now : Int)
    (hcid : e.customer_id = cid) (hexp : now ≤ e.expiryDate)
    (hact : e.status = .active) :
    availablePoints (l ++ [e]) cid now = availablePoints l cid now + e.points := by
  rw [availablePoints_append]
  have hcond : (e.customer_id == cid && decide (now ≤ e.expiryDate) &&
      e.status == .active) = true := by
    simp [hcid, hexp, hact]
  rw [hcond]
  simp

/-- Claim C10 — `addPointsIndividual` increments both `total_points` and
`coins` by the award, while a successful `reducePoints` rewrites the customer
document to the same record with only `total_points` decremented (coins and
every other field unchanged); composing a grant of the award with a
successful reduction of the same amount restores `total_points` but leaves
`coins` higher by the award. -/
theorem grant_and_reduce_frame (w : World) (calcExpiry : Option Nat → Int)
    (now : Int) (cid : Nat) (pc rb note rb2 note2 : String)
    (tierUpgrade : Option Nat) (ledgerOk : Bool)
    (c : Customer) (crit : PointCriteria) (rule : PointRule)
    (hc : getCustomer w cid = some c)
    (hcrit : resolvePointCriteria w pc = some crit)
    (hrule : getManualPointsForCriteria crit = .ok rule) :
    customerTotal
      (addPointsIndividual w calcExpiry now cid pc rb note ledgerOk tierUpgrade).2 c.id =
      some (c.total_points + rule.pointRate) ∧
    customerCoins
      (addPointsIndividual w calcExpiry now cid pc rb note ledgerOk tierUpgrade).2 c.id =
      some (c.coins + rule.pointRate) ∧
    (∀ (w2 : World) (c2 : Customer) (n : Int),
      getCustomer w2 cid = some c2 → 0 < n →
      n ≤ availablePoints w2.ledger c2.id now →
      (reducePoints w2 now cid n rb2 note2).1 = .success (c2.total_points - n) ∧
      getCustomer (reducePoints w2 now cid n rb2 note2).2 cid =
        some { c2 with total_points := c2.total_points - n }) ∧
    (ledgerOk = true →
      now ≤ calcExpiry ((w.tiers.find? (fun t => t.id == c.tier)).map (fun t => t.id)) →
      0 ≤ availablePoints w.ledger c.id now →
      customerTotal
        (reducePoints (addPointsIndividual w calcExpiry now cid pc rb note ledgerOk tierUpgrade).2
          now cid rule.pointRate rb2 note2).2 c.id = some c.total_points ∧
      customerCoins
        (reducePoints (addPointsIndividual w calcExpiry now cid pc rb note ledgerOk tierUpgrade).2
          now cid rule.pointRate rb2 note2).2 c.id = some (c.coins + rule.pointRate)) := by
  have hcid : c.id = cid := by simpa using List.find?_some hc
  have hcfind : w.customers.find? (fun x => x.id == c.id) = some c := by
    rw [hcid]; exact hc
  have hcust :
      (addPointsIndividual w calcExpiry now cid pc rb note ledgerOk tierUpgrade).2.customers =
        applyTierUpgrade (incPointsAndCoins w.customers c.id rule.pointRate) c.id tierUpgrade := by
    cases ledgerOk <;> simp only [addPointsIndividual, hc, hcrit, hrule] <;> simp
  have hbal := grant_balance_update w.customers c rule.pointRate tierUpgrade hcfind
  have htot : customerTotal
      (addPointsIndividual w calcExpiry now cid pc rb note ledgerOk tierUpgrade).2 c.id =
      some (c.total_points + rule.pointRate) := by
    unfold customerTotal getCustomer
    rw [hcust]
    exact hbal.1
  have hcoins : customerCoins
      (addPointsIndividual w calcExpiry now cid pc rb note ledgerOk tierUpgrade).2 c.id =
      some (c.coins + rule.pointRate) := by
    unfold customerCoins getCustomer
    rw [hcust]
    exact hbal.2
  have hreduce : ∀ (w2 : World) (c2 : Customer) (n : Int),
      getCustomer w2 cid = some c2 → 0 < n →
      n ≤ availablePoints w2.ledger c2.id now →
      (reducePoints w2 now cid n rb2 note2).1 = .success (c2.total_points - n) ∧
      getCustomer (reducePoints w2 now cid n rb2 note2).2 cid =
        some { c2 with total_points := c2.total_points - n } := by
    intro w2 c2 n hc2 hn hle
    have hc2id : c2.id = cid := by simpa using List.find?_some hc2
    have hsucc : (redeemPointsFIFO w2.ledger c2.id n now).1.success = true := by
      simp only [redeemPointsFIFO]
      rw [validEntries_sum]
      rw [if_neg (not_lt.mpr hle)]
    have hred : reducePoints w2 now cid n rb2 note2 =
        (.success (c2.total_points - n),
          { w2 with
            ledger := (redeemPointsFIFO w2.ledger c2.id n now).2,
            transactions := w2.transactions ++
              [{ customer_id := c2.id, transaction_type := .redeem,
                 points := -n, transaction_id := "REDUCE",
                 status := .completed, note := buildManualNote "reduction" note2,
                 app_type := (findAppType w2 rb2).map (fun a => a.id),
                 metadata_used_points :=
                   (redeemPointsFIFO w2.ledger c2.id n now).1.usedLoyaltyPoints,
                 transaction_date := now }],
            customers := incTotalOnly w2.customers c2.id (-n) }) := by
      simp only [reducePoints, hc2]
      rw [if_neg (not_le.mpr hn)]
      simp only [hsucc, if_true]
    refine ⟨by rw [hred], ?_⟩
    rw [hred]
    show (incTotalOnly w2.customers c2.id (-n)).find? (fun x => x.id == cid) = _
    have hkey : (fun (x : Customer) => x.id == cid) = (fun x => x.id == c2.id) := by
      rw [hc2id]
    rw [hkey, find?_incTotalOnly]
    have hc2find : w2.customers.find? (fun x => x.id == c2.id) = some c2 := by
      rw [hc2id]; exact hc2
    rw [hc2find]
    have harith : c2.total_points + (-n) = c2.total_points - n := by omega
    simp only [Option.map_some']
    rw [harith]
  refine ⟨htot, hcoins, hreduce, ?_⟩
  intro hledOk hexp havail
  subst hledOk
  have hledger :
      (addPointsIndividual w calcExpiry now cid pc rb note true tierUpgrade).2.ledger =
        w.ledger ++
          [{ id := freshLedgerId w.ledger, customer_id := c.id,
             points := rule.pointRate, earnedAt := now,
             expiryDate := calcExpiry ((w.tiers.find? (fun t => t.id == c.tier)).map (fun t => t.id)),
             status := .active }] := by
    simp only [addPointsIndividual, hc, hcrit, hrule]
    simp
  have htot2 := htot
  unfold customerTotal at htot2
  obtain ⟨c2, hc2, hc2t⟩ := Option.map_eq_some'.mp htot2
  have hc2c : c2.coins = c.coins + rule.pointRate := by
    have hco := hcoins
    unfold customerCoins at hco
    rw [hc2] at hco
    simpa using hco
  have hc2id : c2.id = c.id := by
    have hh := List.find?_some hc2
    simpa using hh
  have havail2 : rule.pointRate ≤
      availablePoints
        (addPointsIndividual w calcExpiry now cid pc rb note true tierUpgrade).2.ledger
        c2.id now := by
    rw [hc2id, hledger, availablePoints_append_one _ _ _ _ rfl hexp rfl]
    show rule.pointRate ≤ availablePoints w.ledger c.id now + rule.pointRate
    linarith [havail]
  have hcomp := hreduce
    (addPointsIndividual w calcExpiry now cid pc rb note true tierUpgrade).2 c2 rule.pointRate
    (hcid ▸ hc2) (manualRule_pos crit rule hrule) havail2
  have hfinal : getCustomer
      (reducePoints (addPointsIndividual w calcExpiry now cid pc rb note true tierUpgrade).2
        now cid rule.pointRate rb2 note2).2 c.id =
      some { c2 with total_points := c2.total_points - rule.pointRate } := by
    rw [hcid]; exact hcomp.2
  constructor
  · unfold customerTotal
    rw [hfinal]
    simp only [Option.map_some']
    rw [hc2t]
    congr 1
    omega
  · unfold customerCoins
    rw [hfinal]
    simp only [Option.map_some']
    rw [hc2c]

/-- Witness for claim C10 at the concrete manual world: granting 10 and then
reducing 10 restores `total_points` (5) and leaves `coins` higher by 10. -/
theorem grant_and_reduce_frame_witness :
    customerTotal
      (reducePoints (addPointsIndividual wManual (fun _ => 100) 0 1 "PROMO1" "a" "n" true none).2
        0 1 10 "a2" "n2").2 1 = some 5 ∧
    customerCoins
      (reducePoints (addPointsIndividual wManual (fun _ => 100) 0 1 "PROMO1" "a" "n" true none).2
        0 1 10 "a2" "n2").2 1 = some (2 + 10) := by
  have h := grant_and_reduce_frame wManual (fun _ => 100) 0 1 "PROMO1" "a" "n" "a2" "n2" none true
    { id := 1, customer_id := "C1", tier := 1, total_points := 5, coins := 2 }
    { id := "aaaaaaaaaaaaaaaaaaaaaaaa", unique_code := "PROMO1",
      pointSystem := [{ pointType := "fixed", pointRate := 10 }] }
    { pointType := "fixed", pointRate := 10 } rfl rfl rfl
  exact h.2.2.2 rfl (by decide) (by decide)

/-- The sweep fold leaves tiers, priority records and criteria untouched. -/
theorem sweep_static (now : Int) :
    ∀ (S : List LedgerEntry) (w : World),
      (S.foldl (processExpired now) w).tiers = w.tiers ∧
      (S.foldl (processExpired now) w).priority = w.priority ∧
      (S.foldl (processExpired now) w).criteria = w.criteria := by
  intro S
  induction S with
  | nil => intro w; exact ⟨rfl, rfl, rfl⟩
  | cons e S ih => intro w; rw [List.foldl_cons]; exact ih _

/-- The `$inc`-total update does not change any customer's tier projection. -/
theorem tierProj_incTotalOnly (l : List Customer) (k cid : Nat) (δ : Int) :
    ((incTotalOnly l k δ).find? (fun x => x.id == cid)).map (fun x => x.tier) =
      (l.find? (fun x => x.id == cid)).map (fun x => x.tier) := by
  by_cases h : k = cid
  · subst h
    rw [find?_incTotalOnly]
    cases l.find? (fun x => x.id == k) <;> rfl
  · rw [find?_incTotalOnly_ne l k cid δ h]

/-- The sweep fold does not change any customer's tier projection. -/
theorem sweep_customerTier (now : Int) :
    ∀ (S : List LedgerEntry) (w : World) (cid : Nat),
      customerTier (S.foldl (processExpired now) w) cid = customerTier w cid := by
  intro S
  induction S with
  | nil => intro w cid; rfl
  | cons e S ih =>
    intro w cid
    rw [List.foldl_cons, ih]
    show ((incTotalOnly w.customers e.customer_id (-e.points)).find?
        (fun x => x.id == cid)).map (fun x => x.tier) = _
    rw [tierProj_incTotalOnly]
    rfl

/-- Mapping with a function that preserves a projection preserves the
projected list. -/
theorem map_id_of_preserve {α : Type} (g : α → α) (f : α → Nat)
    (hf : ∀ a, f (g a) = f a) :
    ∀ l : List α, (l.map g).map f = l.map f := by
  intro l
  induction l with
  | nil => rfl
  | cons a l ih => simp only [List.map_cons, hf a, ih]

/-- The `$inc`-total update preserves the customer id list. -/
theorem ids_incTotalOnly (l : List Customer) (k : Nat) (δ : Int) :
    (incTotalOnly l k δ).map (fun c => c.id) = l.map (fun c => c.id) := by
  show (l.map (fun c =>
      if c.id == k then { c with total_points := c.total_points + δ } else c)).map
      (fun c => c.id) = l.map (fun c => c.id)
  exact map_id_of_preserve _ _ (fun a => by by_cases h : a.id = k <;> simp [h]) l

/-- The sweep fold preserves the customer id list. -/
theorem sweep_ids (now : Int) :
    ∀ (S : List LedgerEntry) (w : World),
      ((S.foldl (processExpired now) w).customers).map (fun c => c.id) =
        w.customers.map (fun c => c.id) := by
  intro S
  induction S with
  | nil => intro w; rfl
  | cons e S ih =>
    intro w
    rw [List.foldl_cons, ih]
    show (incTotalOnly w.customers e.customer_id (-e.points)).map (fun c => c.id) = _
    rw [ids_incTotalOnly]

/-- The sweep fold appends only `expire` transactions, so it changes no other
per-customer transaction count. -/
theorem sweep_txCount (now : Int) (cid : Nat) (ty : TxType) (hty : ty ≠ .expire) :
    ∀ (S : List LedgerEntry) (w : World),
      txCount (S.foldl (processExpired now) w).transactions cid ty =
        txCount w.transactions cid ty := by
  intro S
  induction S with
  | nil => intro w; rfl
  | cons e S ih =>
    intro w
    rw [List.foldl_cons, ih]
    show txCount (w.transactions ++ [_]) cid ty = _
    rw [txCount_append]
    have hb : ((TxType.expire : TxType) == ty) = false := by
      simpa using fun hq => hty hq.symm
    simp [hb]

/-- A tier step leaves tiers and priority records untouched. -/
theorem step_static (now : Int) (tiers : List Tier) (bt : Tier) (w : World)
    (x : Customer) :
    (customerTierStep now tiers bt w x).tiers = w.tiers ∧
    (customerTierStep now tiers bt w x).priority = w.priority := by
  simp only [customerTierStep, downgradePhase]
  repeat' split
  all_goals exact ⟨rfl, rfl⟩

/-- A tier step for one customer changes neither another customer's tier
projection nor another customer's transaction counts. -/
theorem step_frame (now : Int) (tiers : List Tier) (bt : Tier) (w : World)
    (x : Customer) (cid : Nat) (ty : TxType) (h : x.id ≠ cid) :
    customerTier (customerTierStep now tiers bt w x) cid = customerTier w cid ∧
    txCount (customerTierStep now tiers bt w x).transactions cid ty =
      txCount w.transactions cid ty := by
  have hbeq : (x.id == cid) = false := beq_eq_false_iff_ne.mpr h
  simp only [customerTierStep, downgradePhase]
  repeat' split
  all_goals
    first
      | exact ⟨rfl, rfl⟩
      | (refine ⟨?_, ?_⟩
         · show ((updateTier w.customers x.id _).find? (fun c => c.id == cid)).map
             (fun c => c.tier) = _
           rw [find?_updateTier_ne _ _ _ _ h]
           rfl
         · rw [txCount_append]
           simp [protectionTx, downgradeTx, hbeq])

/-- The tier fold over customers with other ids is a frame for a customer's
tier projection and transaction counts. -/
theorem fold_frame (now : Int) (tiers : List Tier) (bt : Tier) (cid : Nat)
    (ty : TxType) :
    ∀ (L : List Customer) (w : World), (∀ x ∈ L, x.id ≠ cid) →
      customerTier (L.foldl (customerTierStep now tiers bt) w) cid =
        customerTier w cid ∧
      txCount (L.foldl (customerTierStep now tiers bt) w).transactions cid ty =
        txCount w.transactions cid ty := by
  intro L
  induction L with
  | nil => intro w _; exact ⟨rfl, rfl⟩
  | cons x L ih =>
    intro w h
    rw [List.foldl_cons]
    have hstep := step_frame now tiers bt w x cid ty (h x (List.mem_cons_self _ _))
    have hrest := ih (customerTierStep now tiers bt w x)
      (fun y hy => h y (List.mem_cons_of_mem _ hy))
    exact ⟨hrest.1.trans hstep.1, hrest.2.trans hstep.2⟩

/-- The tier fold leaves tiers and priority records untouched. -/
theorem fold_static (now : Int) (tiers : List Tier) (bt : Tier) :
    ∀ (L : List Customer) (w : World),
      (L.foldl (customerTierStep now tiers bt) w).tiers = w.tiers ∧
      (L.foldl (customerTierStep now tiers bt) w).priority = w.priority := by
  intro L
  induction L with
  | nil => intro w; exact ⟨rfl, rfl⟩
  | cons x L ih =>
    intro w
    rw [List.foldl_cons]
    have hstep := step_static now tiers bt w x
    have hrest := ih (customerTierStep now tiers bt w x)
    exact ⟨hrest.1.trans hstep.1, hrest.2.trans hstep.2⟩

/-- When the current tier sits strictly below an active priority minimum, the
step takes the immediate protection-upgrade branch. -/
theorem step_protect (now : Int) (tiers : List Tier) (bt : Tier) (acc : World)
    (c1 : Customer) (ct pt : Tier) (p : PriorityCustomer)
    (hct : acc.tiers.find? (fun t => t.id == c1.tier) = some ct)
    (hp : acc.priority.find? (fun q => q.customer_id == c1.id && q.is_active) = some p)
    (hpt : acc.tiers.find? (fun t => t.id == p.tier_id) = some pt)
    (hlt : ct.hierarchy_level < pt.hierarchy_level) :
    customerTierStep now tiers bt acc c1 =
      { acc with
        customers := updateTier acc.customers c1.id pt.id,
        transactions := acc.transactions ++ [protectionTx now c1 ct pt] } := by
  simp only [customerTierStep, hct, hp, Option.some_bind, hpt]
  rw [if_pos hlt]

/-- The tier write maps the found customer's tier projection to the new id. -/
theorem tierProj_updateTier_self (l : List Customer) (uid tid : Nat) :
    ((updateTier l uid tid).find? (fun x => x.id == uid)).map (fun x => x.tier) =
      (l.find? (fun x => x.id == uid)).map (fun _ => tid) := by
  rw [find?_updateTier_self]
  cases l.find? (fun x => x.id == uid) <;> rfl

/-- Counterexample to claim C1 as stated: a customer at the base (Bronze)
tier with an active priority record guaranteeing Silver is excluded from the
processor's scan (`tier ≠ bronzeTier._id`), so the run changes nothing: no
upgrade and no `tier_protection_adjustment` transaction. -/
theorem base_tier_customer_not_protected :
    (wBronzeProtected.priority.find? (fun q => q.customer_id == 10 && q.is_active) =
      some { customer_id := 10, tier_id := 2, is_active := true }) ∧
    customerTier wBronzeProtected 10 = some tBronze.id ∧
    wBronzeProtected.tiers.find? (fun t => t.id == 2) = some tSilver ∧
    tBronze.hierarchy_level < tSilver.hierarchy_level ∧
    processPointsAndTiers 0 wBronzeProtected = wBronzeProtected ∧
    customerTier (processPointsAndTiers 0 wBronzeProtected) 10 ≠ some tSilver.id ∧
    txCount (processPointsAndTiers 0 wBronzeProtected).transactions 10
      .tier_protection_adjustment = 0 := by
  decide

/-- Claim C1 (amended) — for every customer whose current tier is not the
run's base tier, holding an active priority record whose guaranteed minimum
tier has a strictly higher hierarchy level than the current tier, a run of
the processor sets the customer's tier to the guaranteed minimum and creates
exactly one `tier_protection_adjustment` transaction for them. -/
theorem priority_protection_upgrade (now : Int) (w : World) (c : Customer)
    (bt ct pt : Tier) (p : PriorityCustomer)
    (hnodup : (w.customers.map (fun x => x.id)).Nodup)
    (hc : getCustomer w c.id = some c)
    (hbase : baseTier w.tiers = some bt)
    (hnotbase : c.tier ≠ bt.id)
    (hct : w.tiers.find? (fun t => t.id == c.tier) = some ct)
    (hp : w.priority.find? (fun q => q.customer_id == c.id && q.is_active) = some p)
    (hpt : w.tiers.find? (fun t => t.id == p.tier_id) = some pt)
    (hlt : ct.hierarchy_level < pt.hierarchy_level) :
    customerTier (processPointsAndTiers now w) c.id = some pt.id ∧
    txCount (processPointsAndTiers now w).transactions c.id .tier_protection_adjustment =
      txCount w.transactions c.id .tier_protection_adjustment + 1 := by
  have hsw_static := sweep_static now (newlyExpired now w.ledger) w
  have hswT : (expireSweep now w).tiers = w.tiers := hsw_static.1
  have hswP : (expireSweep now w).priority = w.priority := hsw_static.2.1
  have hswTier : customerTier (expireSweep now w) c.id = customerTier w c.id :=
    sweep_customerTier now (newlyExpired now w.ledger) w c.id
  have hswIds : ((expireSweep now w).customers).map (fun x => x.id) =
      w.customers.map (fun x => x.id) :=
    sweep_ids now (newlyExpired now w.ledger) w
  have hswCnt : txCount (expireSweep now w).transactions c.id .tier_protection_adjustment =
      txCount w.transactions c.id .tier_protection_adjustment :=
    sweep_txCount now c.id .tier_protection_adjustment (fun hq => TxType.noConfusion hq)
      (newlyExpired now w.ledger) w
  have hbase1 : baseTier (expireSweep now w).tiers = some bt := by
    rw [hswT]; exact hbase
  have hproc : processPointsAndTiers now w =
      ((expireSweep now w).customers.filter (fun x => x.tier != bt.id)).foldl
        (customerTierStep now (sortTiersDesc (expireSweep now w).tiers) bt)
        (expireSweep now w) := by
    simp only [processPointsAndTiers, hbase1]
  have hcw : customerTier w c.id = some c.tier := by
    unfold customerTier
    rw [hc]
    rfl
  have h1 : customerTier (expireSweep now w) c.id = some c.tier := hswTier.trans hcw
  have h1x := h1
  unfold customerTier at h1x
  obtain ⟨c1, hc1, hc1t⟩ := Option.map_eq_some'.mp h1x
  have hc1id : c1.id = c.id := by simpa using List.find?_some hc1
  have hc1mem : c1 ∈ (expireSweep now w).customers := List.mem_of_find?_eq_some hc1
  have hc1filt : c1 ∈ (expireSweep now w).customers.filter (fun x => x.tier != bt.id) := by
    rw [List.mem_filter]
    refine ⟨hc1mem, ?_⟩
    rw [hc1t]
    simpa using hnotbase
  obtain ⟨L1, L2, hL⟩ := List.append_of_mem hc1filt
  have hnodup1 : (((expireSweep now w).customers).map (fun x => x.id)).Nodup := by
    rw [hswIds]; exact hnodup
  have hnodupL : ((((expireSweep now w).customers.filter
      (fun x => x.tier != bt.id))).map (fun x => x.id)).Nodup :=
    hnodup1.sublist (List.Sublist.map _ (List.filter_sublist _))
  rw [hL, List.map_append, List.map_cons] at hnodupL
  have hnd := List.nodup_append.mp hnodupL
  have hL1ne : ∀ x ∈ L1, x.id ≠ c.id := by
    intro x hx heq
    exact hnd.2.2 (List.mem_map_of_mem _ hx)
      (by rw [heq, ← hc1id]; exact List.mem_cons_self _ _)
  have hL2ne : ∀ x ∈ L2, x.id ≠ c.id := by
    intro x hx heq
    have hnotin : c1.id ∉ L2.map (fun x => x.id) := (List.nodup_cons.mp hnd.2.1).1
    exact hnotin (by rw [hc1id, ← heq]; exact List.mem_map_of_mem _ hx)
  have hfr1 := fold_frame now (sortTiersDesc (expireSweep now w).tiers) bt c.id
    .tier_protection_adjustment L1 (expireSweep now w) hL1ne
  have hst1 := fold_static now (sortTiersDesc (expireSweep now w).tiers) bt L1
    (expireSweep now w)
  have hA1tier : customerTier
      (L1.foldl (customerTierStep now (sortTiersDesc (expireSweep now w).tiers) bt)
        (expireSweep now w)) c.id = some c.tier := hfr1.1.trans h1
  have hA1cnt : txCount
      (L1.foldl (customerTierStep now (sortTiersDesc (expireSweep now w).tiers) bt)
        (expireSweep now w)).transactions c.id .tier_protection_adjustment =
      txCount w.transactions c.id .tier_protection_adjustment := hfr1.2.trans hswCnt
  have hA1T : (L1.foldl (customerTierStep now (sortTiersDesc (expireSweep now w).tiers) bt)
      (expireSweep now w)).tiers = w.tiers := hst1.1.trans hswT
  have hA1P : (L1.foldl (customerTierStep now (sortTiersDesc (expireSweep now w).tiers) bt)
      (expireSweep now w)).priority = w.priority := hst1.2.trans hswP
  have hA1x := hA1tier
  unfold customerTier at hA1x
  obtain ⟨c1a, hc1a, hc1at⟩ := Option.map_eq_some'.mp hA1x
  have hc1a2 : (L1.foldl (customerTierStep now (sortTiersDesc (expireSweep now w).tiers) bt)
      (expireSweep now w)).customers.find? (fun x => x.id == c.id) = some c1a := hc1a
  have hct1 : (L1.foldl (customerTierStep now (sortTiersDesc (expireSweep now w).tiers) bt)
      (expireSweep now w)).tiers.find? (fun t => t.id == c1.tier) = some ct := by
    rw [hA1T, hc1t]; exact hct
  have hp1 : (L1.foldl (customerTierStep now (sortTiersDesc (expireSweep now w).tiers) bt)
      (expireSweep now w)).priority.find?
      (fun q => q.customer_id == c1.id && q.is_active) = some p := by
    rw [hA1P, hc1id]; exact hp
  have hpt1 : (L1.foldl (customerTierStep now (sortTiersDesc (expireSweep now w).tiers) bt)
      (expireSweep now w)).tiers.find? (fun t => t.id == p.tier_id) = some pt := by
    rw [hA1T]; exact hpt
  have hstep := step_protect now (sortTiersDesc (expireSweep now w).tiers) bt
    (L1.foldl (customerTierStep now (sortTiersDesc (expireSweep now w).tiers) bt)
      (expireSweep now w)) c1 ct pt p hct1 hp1 hpt1 hlt
  have hA2tier : customerTier
      (customerTierStep now (sortTiersDesc (expireSweep now w).tiers) bt
        (L1.foldl (customerTierStep now (sortTiersDesc (expireSweep now w).tiers) bt)
          (expireSweep now w)) c1) c.id = some pt.id := by
    rw [hstep]
    show ((updateTier _ c1.id pt.id).find? (fun x => x.id == c.id)).map
      (fun x => x.tier) = some pt.id
    rw [← hc1id, tierProj_updateTier_self]
    rw [hc1id, hc1a2]
    rfl
  have hA2cnt : txCount
      (customerTierStep now (sortTiersDesc (expireSweep now w).tiers) bt
        (L1.foldl (customerTierStep now (sortTiersDesc (expireSweep now w).tiers) bt)
          (expireSweep now w)) c1).transactions c.id .tier_protection_adjustment =
      txCount w.transactions c.id .tier_protection_adjustment + 1 := by
    rw [hstep]
    show txCount (_ ++ [protectionTx now c1 ct pt]) c.id .tier_protection_adjustment = _
    rw [txCount_append]
    simp [protectionTx, hc1id, hA1cnt]
  have hfr2 := fold_frame now (sortTiersDesc (expireSweep now w).tiers) bt c.id
    .tier_protection_adjustment L2
    (customerTierStep now (sortTiersDesc (expireSweep now w).tiers) bt
      (L1.foldl (customerTierStep now (sortTiersDesc (expireSweep now w).tiers) bt)
        (expireSweep now w)) c1) hL2ne
  rw [hproc, hL, List.foldl_append, List.foldl_cons]
  exact ⟨hfr2.1.trans hA2tier, hfr2.2.trans hA2cnt⟩

/-- Witness for the amended claim C1: a Silver customer protected to Gold
gets upgraded with exactly one protection transaction. -/
theorem priority_protection_upgrade_witness :
    customerTier (processPointsAndTiers 0 wSilverProtected) 11 = some tGold.id ∧
    txCount (processPointsAndTiers 0 wSilverProtected).transactions 11
        .tier_protection_adjustment =
      txCount wSilverProtected.transactions 11 .tier_protection_adjustment + 1 := by
  have h := priority_protection_upgrade 0 wSilverProtected
    { id := 11, customer_id := "CUST011", tier := 2, total_points := 0, coins := 0 }
    tBronze tSilver tGold { customer_id := 11, tier_id := 3, is_active := true }
    (by decide) rfl (by decide) (by decide) rfl rfl rfl (by decide)
  exact h

/-- Claim C4 — with an active priority record, the downgrade target is
clamped before any write: the clamp never yields a tier below the guaranteed
minimum, a scan result below the minimum is replaced by the minimum tier, and
the step writes the customer's tier only to a tier at or above the minimum
(or leaves it unchanged). -/
theorem downgrade_clamped_to_priority (now : Int) (tiers : List Tier) (bt : Tier)
    (w : World) (c : Customer) (ct pt : Tier) (p : PriorityCustomer)
    (hct : w.tiers.find? (fun t => t.id == c.tier) = some ct)
    (hp : w.priority.find? (fun q => q.customer_id == c.id && q.is_active) = some p)
    (hpt : w.tiers.find? (fun t => t.id == p.tier_id) = some pt) :
    (∀ t : Tier, pt.hierarchy_level ≤ (clampToPriority t (some pt)).hierarchy_level) ∧
    (∀ t : Tier, t.hierarchy_level < pt.hierarchy_level →
      clampToPriority t (some pt) = pt) ∧
    (customerTier (customerTierStep now tiers bt w c) c.id = customerTier w c.id ∨
      ∃ t : Tier, customerTier (customerTierStep now tiers bt w c) c.id = some t.id ∧
        pt.hierarchy_level ≤ t.hierarchy_level) := by
  have hclamp : ∀ t : Tier,
      pt.hierarchy_level ≤ (clampToPriority t (some pt)).hierarchy_level := by
    intro t
    simp only [clampToPriority]
    split
    · exact le_refl _
    · rename_i hnlt
      exact le_of_not_lt hnlt
  refine ⟨hclamp, ?_, ?_⟩
  · intro t hlt2
    simp only [clampToPriority]
    rw [if_pos hlt2]
  · simp only [customerTierStep, hct, hp, Option.some_bind, hpt]
    by_cases hbr : ct.hierarchy_level < pt.hierarchy_level
    · rw [if_pos hbr]
      cases hcw : w.customers.find? (fun x => x.id == c.id) with
      | none =>
        left
        show ((updateTier w.customers c.id pt.id).find? (fun x => x.id == c.id)).map
          (fun x => x.tier) = (w.customers.find? (fun x => x.id == c.id)).map
          (fun x => x.tier)
        rw [tierProj_updateTier_self, hcw]
        rfl
      | some r =>
        right
        refine ⟨pt, ?_, le_refl _⟩
        show ((updateTier w.customers c.id pt.id).find? (fun x => x.id == c.id)).map
          (fun x => x.tier) = some pt.id
        rw [tierProj_updateTier_self, hcw]
        rfl
    · rw [if_neg hbr]
      simp only [downgradePhase]
      by_cases hret : checkTierRetentionEligibility w c ct now = true
      · rw [if_pos hret]
        exact Or.inl rfl
      · rw [if_neg hret]
        by_cases hw2 : (clampToPriority (downgradeScanTarget w now tiers bt c ct)
            (some pt)).hierarchy_level < ct.hierarchy_level
        · rw [if_pos hw2]
          by_cases hid : ((clampToPriority (downgradeScanTarget w now tiers bt c ct)
              (some pt)).id == ct.id) = true
          · rw [if_pos hid]
            exact Or.inl rfl
          · rw [if_neg hid]
            cases hcw : w.customers.find? (fun x => x.id == c.id) with
            | none =>
              left
              show ((updateTier w.customers c.id _).find? (fun x => x.id == c.id)).map
                (fun x => x.tier) = (w.customers.find? (fun x => x.id == c.id)).map
                (fun x => x.tier)
              rw [tierProj_updateTier_self, hcw]
              rfl
            | some r =>
              right
              refine ⟨clampToPriority (downgradeScanTarget w now tiers bt c ct) (some pt),
                ?_, hclamp _⟩
              show ((updateTier w.customers c.id _).find? (fun x => x.id == c.id)).map
                (fun x => x.tier) = some _
              rw [tierProj_updateTier_self, hcw]
              rfl
        · rw [if_neg hw2]
          exact Or.inl rfl

/-- Witness for claim C4: the clamp replaces a base-tier scan result by the
Gold priority minimum. -/
theorem downgrade_clamped_to_priority_witness :
    clampToPriority tBronze (some tGold) = tGold := by
  have h := downgrade_clamped_to_priority 0 (sortTiersDesc wSilverProtected.tiers) tBronze
    wSilverProtected
    { id := 11, customer_id := "CUST011", tier := 2, total_points := 0, coins := 0 }
    tSilver tGold { customer_id := 11, tier_id := 3, is_active := true } rfl rfl rfl
  exact h.2.1 tBronze (by decide)

end Loyalty
